import Mathlib

/-!
# Funpay-AutoSteam: a shallow embedding of `bot_funpay.py`

This development embeds the session-keyed order-fulfillment state machine of
`Funpay AutoSteam/bot_funpay.py` in Lean 4 and proves the specified safety
properties of the session store, the conversation engine, the order intake
validation, the payment orchestration and the HTTP retry wrapper.

Python values that flow through the identity plumbing (ids can be ints,
strings or `None`) are modelled by `PyVal`; Python float amounts are modelled
by `Rat`; the global mutable dict `USER_STATES`, whose several keys alias the
same mutable session dict, is modelled by an association list from string keys
to session ids together with a map from session ids to session records.
External HTTP calls are modelled by oracle inputs (the response the remote
side would give) plus an explicit effect trace recording each outbound call.
-/

namespace AutoSteam

/-! ### Python string primitives

Python's `str` methods, modelled on the character list of the Lean string
(ASCII-faithful, which covers every token the program compares against). -/

/-- `str.upper()`. -/
def pyUpper (s : String) : String := ⟨s.data.map Char.toUpper⟩

/-- `str.lower()`. -/
def pyLower (s : String) : String := ⟨s.data.map Char.toLower⟩

/-- `str.strip()`. -/
def pyTrim (s : String) : String :=
  ⟨((s.data.dropWhile (fun c => c.isWhitespace)).reverse.dropWhile
      (fun c => c.isWhitespace)).reverse⟩

/-- `str.startswith(pre)`. -/
def pyStartsWith (s pre : String) : Bool := pre.data.isPrefixOf s.data

/-- Digit run to a number (`none` unless nonempty and all digits). -/
def digitsToNat (l : List Char) : Option Nat :=
  match l with
  | [] => none
  | _ =>
      if l.all (fun c => c.isDigit) then
        some (l.foldl (fun a c => a * 10 + (c.toNat - 48)) 0)
      else none

/-- `int(s)` on an already-stripped string: optional sign, then digits. -/
def pyToInt (s : String) : Option Int :=
  match s.data with
  | '-' :: rest => (digitsToNat rest).map (fun n => -(n : Int))
  | '+' :: rest => (digitsToNat rest).map (fun n => (n : Int))
  | l => (digitsToNat l).map (fun n => (n : Int))

/-- `s.split(sep)` on character lists, `sep = c0 :: ctail` nonempty: split
at each leftmost non-overlapping occurrence.  The structural fuel equals the
list length (each step consumes at least one character), keeping the
function kernel-computable. -/
def splitOnL (c0 : Char) (ctail : List Char) : Nat → List Char → List (List Char)
  | 0, l => [l]
  | _ + 1, [] => [[]]
  | fuel + 1, c :: rest =>
      if (c0 :: ctail).isPrefixOf (c :: rest) then
        [] :: splitOnL c0 ctail fuel (rest.drop ctail.length)
      else
        match splitOnL c0 ctail fuel rest with
        | [] => [[c]]
        | h :: t => (c :: h) :: t

/-- `s.split(sep)` (Python raises on an empty separator; we return the
whole string, a case the program never exercises). -/
def pySplitOn (s sep : String) : List String :=
  match sep.data with
  | [] => [s]
  | c0 :: ctail => (splitOnL c0 ctail s.data.length s.data).map (fun l => ⟨l⟩)

/-- The first whitespace-delimited token (`s.split()[0]`, `none` on
`IndexError`). -/
def firstWord (s : String) : Option String :=
  match s.data.dropWhile (fun c => c.isWhitespace) with
  | [] => none
  | c :: rest => some ⟨c :: rest.takeWhile (fun c => !c.isWhitespace)⟩

/-- A Python value as it appears in the id plumbing: `None`, an int, or a
string.  (Message/order attributes read with `getattr(..., None)`.) -/
inductive PyVal where
  | vnone : PyVal
  | vint : Int → PyVal
  | vstr : String → PyVal
deriving DecidableEq, Repr

/-- Python truthiness for the values above: `None`, `0` and `""` are falsy. -/
def PyVal.truthy : PyVal → Bool
  | .vnone => false
  | .vint n => n != 0
  | .vstr s => s != ""

/-- Python `==` on these values: ints compare to ints, strings to strings,
cross-type comparison is `False`. -/
def pyEq : PyVal → PyVal → Bool
  | .vnone, .vnone => true
  | .vint a, .vint b => a == b
  | .vstr a, .vstr b => a == b
  | _, _ => false

/-- Python `a or b`: `a` if truthy, else `b`. -/
def pyOr (a b : PyVal) : PyVal := if a.truthy then a else b

/-- `_norm_id(v)`: `None` stays `None`; ints are rendered in decimal;
strings are parsed as ints when possible (then re-rendered), otherwise
stripped.  Line 134-140 of the source. -/
def _norm_id : PyVal → Option String
  | .vnone => none
  | .vint n => some (toString n)
  | .vstr s =>
      match pyToInt (pyTrim s) with
      | some n => some (toString n)
      | none => some (pyTrim s)

/-- A normalized id that is also truthy (`if c:` on the normalized string):
`none` when the id is `None` or normalizes to the empty string. -/
def normKey (v : PyVal) : Option String :=
  match _norm_id v with
  | none => none
  | some s => if s = "" then none else some s

/-- `_state_keys(chat_id, buyer_id, order_id)` (lines 142-150): the list of
store keys, in the order the source builds them — chat key, then user key,
then the composite user+order key, each skipped when its id is falsy. -/
def _state_keys (chatId buyerId orderId : PyVal) : List String :=
  (match normKey chatId with
   | some c => ["chat:" ++ c]
   | none => []) ++
  (match normKey buyerId with
   | some b =>
       ["user:" ++ b] ++
       (match normKey orderId with
        | some o => ["user:" ++ b ++ ":order:" ++ o]
        | none => [])
   | none => [])

/-! ## The store as a dictionary

`USER_STATES` maps string keys to (shared, mutable) session dicts.  We model
it as an association list from keys to session ids; `dput` keeps keys unique.
Iteration order of a Python dict is insertion order, but no observable of the
program depends on it (the only iteration, the ambiguous-lookup fallback,
counts entries and returns the head of a singleton). -/

/-- Dictionary read: first (hence only) binding of the key. -/
def dget (d : List (String × Nat)) (k : String) : Option Nat :=
  (d.find? (fun e => e.1 == k)).map (fun e => e.2)

/-- Dictionary write `d[k] = v` (keys stay unique). -/
def dput (d : List (String × Nat)) (k : String) (v : Nat) : List (String × Nat) :=
  (k, v) :: d.filter (fun e => e.1 ≠ k)

/-- `d.pop(k, None)`: drop the binding of `k` if present. -/
def dpop (d : List (String × Nat)) (k : String) : List (String × Nat) :=
  d.filter (fun e => e.1 ≠ k)

/-- Write the same value under every key of a list (the loop in
`_put_state`). -/
def dputAll (d : List (String × Nat)) (ks : List String) (v : Nat) :
    List (String × Nat) :=
  ks.foldl (fun acc k => dput acc k v) d

/-- Drop every binding whose key is in `ks` (the loop in `_pop_state`). -/
def dpopAll (d : List (String × Nat)) (ks : List String) : List (String × Nat) :=
  d.filter (fun e => e.1 ∉ ks)

theorem find_filter_ne (k k₂ : String) (h : k₂ ≠ k) (tl : List (String × Nat)) :
    (tl.filter (fun e => e.1 ≠ k)).find? (fun e => e.1 == k₂) =
      tl.find? (fun e => e.1 == k₂) := by
  induction tl with
  | nil => rfl
  | cons e tl ih =>
      rw [List.filter_cons]
      by_cases he : e.1 = k
      · have h1 : decide (e.1 ≠ k) = false := by simp [he]
        rw [h1]
        simp only [Bool.false_eq_true, if_false]
        rw [List.find?_cons]
        cases hek : ((e.1 : String) == k₂) with
        | true =>
            exfalso
            rw [beq_iff_eq, he] at hek
            exact h hek.symm
        | false => exact ih
      · have h1 : decide (e.1 ≠ k) = true := by simp [he]
        rw [h1]
        simp only [if_true]
        rw [List.find?_cons, List.find?_cons]
        cases hek : ((e.1 : String) == k₂) with
        | true => rfl
        | false => exact ih

theorem find_filter_notMem (ks : List String) (k : String) (h : k ∉ ks)
    (tl : List (String × Nat)) :
    (tl.filter (fun e => e.1 ∉ ks)).find? (fun e => e.1 == k) =
      tl.find? (fun e => e.1 == k) := by
  induction tl with
  | nil => rfl
  | cons e tl ih =>
      rw [List.filter_cons]
      by_cases he : e.1 ∈ ks
      · have h1 : decide (e.1 ∉ ks) = false := by simp [he]
        rw [h1]
        simp only [Bool.false_eq_true, if_false]
        rw [List.find?_cons]
        cases hek : ((e.1 : String) == k) with
        | true =>
            exfalso
            rw [beq_iff_eq] at hek
            exact h (hek ▸ he)
        | false => exact ih
      · have h1 : decide (e.1 ∉ ks) = true := by simp [he]
        rw [h1]
        simp only [if_true]
        rw [List.find?_cons, List.find?_cons]
        cases hek : ((e.1 : String) == k) with
        | true => rfl
        | false => exact ih

theorem find_filter_mem (ks : List String) (k : String) (h : k ∈ ks)
    (tl : List (String × Nat)) :
    (tl.filter (fun e => e.1 ∉ ks)).find? (fun e => e.1 == k) = none := by
  rw [List.find?_eq_none]
  intro e he
  have hmem := (List.mem_filter.mp he).2
  simp only [decide_not, Bool.not_eq_eq_eq_not, Bool.not_true, decide_eq_false_iff_not] at hmem
  simp only [beq_iff_eq]
  exact fun hc => hmem (hc ▸ h)

@[simp] theorem dget_dput (d : List (String × Nat)) (k k₂ : String) (v : Nat) :
    dget (dput d k v) k₂ = if k₂ = k then some v else dget d k₂ := by
  unfold dget dput
  by_cases h : k₂ = k
  · simp [h]
  · have hkk : ((k, v).1 == k₂) = false := by
      simp only [beq_eq_false_iff_ne]
      exact fun hc => h hc.symm
    rw [if_neg h, List.find?_cons_of_neg _ (by simp only [hkk]; exact Bool.false_ne_true),
      find_filter_ne k k₂ h]

@[simp] theorem dget_dpopAll (d : List (String × Nat)) (ks : List String) (k : String) :
    dget (dpopAll d ks) k = if k ∈ ks then none else dget d k := by
  unfold dget dpopAll
  by_cases h : k ∈ ks
  · rw [if_pos h, find_filter_mem ks k h]
    rfl
  · rw [if_neg h, find_filter_notMem ks k h]

theorem dget_dputAll (d : List (String × Nat)) (ks : List String) (v : Nat) (k : String) :
    dget (dputAll d ks v) k = if k ∈ ks then some v else dget d k := by
  induction ks generalizing d with
  | nil => simp [dputAll]
  | cons h tl ih =>
      simp only [dputAll, List.foldl] at *
      rw [ih]
      by_cases hk : k ∈ tl
      · simp [hk, List.mem_cons]
      · by_cases hh : k = h
        · simp [hk, hh]
        · simp [hk, hh]

/-- Any value stored in the dictionary comes from one of its entries. -/
theorem dget_mem (d : List (String × Nat)) (k : String) (v : Nat)
    (h : dget d k = some v) : (k, v) ∈ d := by
  unfold dget at h
  cases hf : d.find? (fun e => e.1 == k) with
  | none => rw [hf] at h; simp at h
  | some e =>
      rw [hf] at h
      simp only [Option.map] at h
      have hmem := List.mem_of_find?_eq_some hf
      have hp := List.find?_some hf
      simp only [beq_iff_eq] at hp
      cases e with
      | mk k₁ v₁ =>
          simp only at hp h
          subst hp
          cases h
          exact hmem

/-! ## Sessions and the system state -/

/-- The `step` field of a session dict; only these four strings are ever
assigned by the program. -/
inductive Step where
  | waitingLogin
  | confirmLogin
  | paying
  | finished
deriving DecidableEq, Repr

/-- One session dict as built by `handle_new_order` (lines 596-606), plus the
`login` key added by the conversation handler and the `_keys` entry added by
`_put_state`. -/
structure Session where
  step : Step
  createdAt : Nat
  buyerId : PyVal
  orderId : PyVal
  chatId : PyVal
  amount : Rat
  currency : String
  usdAmount : Rat
  login : Option String
  paid : Bool
  keys : List String
deriving DecidableEq, Repr

/-- The mutable world: `USER_STATES` as the key index, a table of session
records (several keys alias one record, as the Python dict objects do), and a
counter for fresh session identities. -/
structure Sys where
  store : List (String × Nat)
  sessions : Nat → Option Session
  nextId : Nat

/-- The empty world at process start (`USER_STATES = {}`). -/
def initSys : Sys :=
  { store := [], sessions := fun _ => none, nextId := 0 }

/-- In-place mutation of the session record `sid` (all aliasing keys see it). -/
def updateSession (sys : Sys) (sid : Nat) (s : Session) : Sys :=
  { sys with sessions := fun i => if i = sid then some s else sys.sessions i }

/-- A session id is reachable when some store key maps to it. -/
def reachable (sys : Sys) (sid : Nat) : Prop :=
  ∃ k, dget sys.store k = some sid

/-- An inbound chat message with the attributes `handle_new_message` reads
(each `getattr(..., None)`-style, hence `PyVal`). -/
structure Msg where
  author_id : PyVal := .vnone
  chat_id : PyVal := .vnone
  dialog_id : PyVal := .vnone
  conversation_id : PyVal := .vnone
  order_id : PyVal := .vnone
  text : PyVal := .vnone
  body : PyVal := .vnone
  content : PyVal := .vnone

/-- `msg.chat_id or msg.dialog_id or msg.conversation_id` (lines 627-631). -/
def msgChatId (m : Msg) : PyVal :=
  pyOr (pyOr m.chat_id m.dialog_id) m.conversation_id

/-- `message.text or message.body or message.content or ""` (lines 633-638). -/
def msgRawText (m : Msg) : PyVal :=
  pyOr (pyOr (pyOr m.text m.body) m.content) (.vstr "")

/-- `_find_state_for_message` (lines 167-180): try the keys `_state_keys`
builds — chat, then user, then user+order — and return the first hit; when
none hits, fall back to scanning the store for entries whose key starts with
`user:<b>` and return the candidate exactly when there is one entry. -/
def _find_state_for_message (store : List (String × Nat)) (m : Msg) : Option Nat :=
  let keys := _state_keys (msgChatId m) m.author_id m.order_id
  match keys.findSome? (fun k => dget store k) with
  | some sid => some sid
  | none =>
      match normKey m.author_id with
      | some b =>
          let cands := (store.filter
            (fun e => pyStartsWith e.1 ("user:" ++ b))).map (fun e => e.2)
          if cands.length = 1 then cands.head? else none
      | none => none

/-- `_pop_state(state)` on a session dict (lines 159-165): drop every key
recorded in the session's `_keys` list. -/
def _pop_state (store : List (String × Nat)) (s : Session) : List (String × Nat) :=
  dpopAll store s.keys

/-! ## External calls

Remote responses are oracle inputs; each outbound call is recorded in an
effect trace.  `create_order` effects carry the id of the session being paid
as a ghost correlation tag (the Python call is identified by the fresh
`custom_id` uuid, which ties a create/pay pair to the single handler
invocation that produced it). -/

/-- The user-facing classification `_friendly_http_error` makes from the
response status (lines 256-272); the body is only logged. -/
inductive FriendlyMsg where
  | authIssue
  | rateLimited
  | serverIssue
  | clientRejected
  | genericFail
deriving DecidableEq, Repr

/-- `_friendly_http_error` status classification. -/
def _friendly_http_error (status : Nat) : FriendlyMsg :=
  if status = 401 ∨ status = 403 then .authIssue
  else if status = 429 then .rateLimited
  else if 500 ≤ status then .serverIssue
  else if 400 ≤ status then .clientRejected
  else .genericFail

/-- The reason `handle_new_order` passes to `_nice_refund`. -/
inductive RefundReason where
  | missingCurrency
  | badCurrency (tok : Option String)
  | amountUndetermined
  | belowMinimum (minAmt : Rat) (cur : String)
  | conversionFailed
deriving DecidableEq, Repr

/-- The distinct buyer-facing messages the bot sends. -/
inductive MsgTag where
  | refundNote (reason : RefundReason) (autoRefundOn : Bool)
  | orderThanks (amount : Rat) (cur : String) (usd : Rat)
  | loginNotFound (login : String)
  | loginConfirm (login : String)
  | alreadyProcessing
  | paymentError (m : FriendlyMsg)
  | refundDisabledContactAdmin
  | successNotice
  | loginChangeTooLate
  | newLoginNotFound (login : String)
  | newLoginConfirm (login : String)
deriving DecidableEq, Repr

/-- Observable actions of the two handlers. -/
inductive Eff where
  | tokenRefresh
  | ratesCall (cur : String) (amount : Rat)
  | checkLoginCall (login : String)
  | sendMessage (chat : PyVal) (tag : MsgTag)
  | refundNotice (orderId : PyVal) (reason : RefundReason)
  | refundCall (orderId : PyVal)
  | createOrderCall (sid : Nat) (login : String) (usd : Rat)
  | payOrderCall (sid : Nat)
  | balanceCall
  | deactivateCall (CATEGORY_ID : Nat)
deriving DecidableEq, Repr

/-- Response of `POST /check_balance` as `check_balance` sees it: the HTTP
status, and the parsed JSON body (`none` when `r.json()` raises). -/
inductive BalanceBody where
  | jdict (balanceField : Option (Option Rat))
  | jvalue (v : Option Rat)
deriving DecidableEq, Repr

structure BalanceResp where
  status : Nat
  body : Option BalanceBody
deriving DecidableEq, Repr

/-- `check_balance` (lines 314-324): `raise_for_status`, then
`float(data.get("balance", data) if isinstance(data, dict) else data)`;
any exception yields `0.0`.  `Option Rat` models a JSON value `float`
accepts (`some q`) or rejects (`none`); a dict without a `"balance"` key
feeds the dict itself to `float`, which raises. -/
def check_balance (r : BalanceResp) : Rat :=
  if 400 ≤ r.status ∧ r.status < 600 then 0
  else match r.body with
    | none => 0
    | some (.jdict (some (some q))) => q
    | some (.jdict (some none)) => 0
    | some (.jdict none) => 0
    | some (.jvalue (some q)) => q
    | some (.jvalue none) => 0

/-- Response of `POST /rates`: status and the `usd_price` field of the JSON
body (`none` when absent or unparsable). -/
structure RatesResp where
  status : Nat
  usdPrice : Option Rat
deriving DecidableEq, Repr

/-- `convert_to_usd` (lines 286-297): the settlement currency is returned
unchanged with no remote call; otherwise `POST /rates` is issued (`none`
oracle = the request raised) and a non-200 status or missing `usd_price`
yields `none`. -/
def convert_to_usd (currency : String) (amount : Rat) (oracle : Option RatesResp) :
    Option Rat × List Eff :=
  if pyUpper currency = "USD" then (some amount, [])
  else
    match oracle with
    | none => (none, [.ratesCall (pyUpper currency) amount])
    | some r =>
        if r.status ≠ 200 then (none, [.ratesCall (pyUpper currency) amount])
        else (r.usdPrice, [.ratesCall (pyUpper currency) amount])

/-- `MIN_AMOUNTS` (line 85). -/
def MIN_AMOUNTS (cur : String) : Option Rat :=
  if cur = "RUB" then some 15
  else if cur = "KZT" then some 80
  else if cur = "UAH" then some 7
  else if cur = "USD" then some (3 / 20)
  else none

/-! ## The HTTP retry wrapper -/

/-- `resp.status_code in (401, 403)`. -/
def isAuthFailure (status : Nat) : Bool :=
  status = 401 || status = 403

/-- Outbound actions of `_request_with_refresh`: the numbered request
attempts and the credential fetch of `_refresh_token`. -/
inductive ReqEff where
  | httpRequest (path : String) (attempt : Nat)
  | tokenFetch
deriving DecidableEq, Repr

/-- `_request_with_refresh` (lines 220-229): issue the request; on a 401/403
with `retry` set, refresh the bearer token and issue the identical request a
second time, returning that second response as-is; every other status is
returned without retry.  `oracle n` is the status the provider answers to
attempt `n`. -/
def _request_with_refresh (path : String) (retry : Bool) (oracle : Nat → Nat) :
    Nat × List ReqEff :=
  let resp := oracle 0
  if isAuthFailure resp && retry then
    let resp2 := oracle 1
    (resp2, [.httpRequest path 0, .tokenFetch, .httpRequest path 1])
  else
    (resp, [.httpRequest path 0])

/-! ## Order intake -/

/-- The env-derived configuration the handlers read. -/
structure Config where
  autoRefund : Bool := true
  autoDeactivate : Bool := true
  minBalance : Rat := 5

/-- `CATEGORY_ID` (line 30). -/
def CATEGORY_ID : Int := 1086

/-- A marketplace order with the attributes `handle_new_order` reads. -/
structure Order where
  id : PyVal := .vnone
  chat_id : PyVal := .vnone
  buyer_id : PyVal := .vnone
  full_description : Option String := none
  short_description : Option String := none
  html : Option String := none
  title : Option String := none

/-- First truthy string among the listed attribute values. -/
def firstNonempty : List (Option String) → Option String
  | [] => none
  | some s :: rest => if s ≠ "" then some s else firstNonempty rest
  | none :: rest => firstNonempty rest

/-- `get_description_text` (lines 504-509): the first truthy of
`full_description`, `short_description`, `html`, `title`, lowercased;
empty when none is set. -/
def get_description_text (o : Order) : String :=
  match firstNonempty
      [o.full_description, o.short_description, o.html, o.title] with
  | some s => pyLower s
  | none => ""

/-- `"steam_wallet:" in desc_text` (line 550). -/
def containsMarker (desc : String) : Bool :=
  (pySplitOn desc "steam_wallet:").length ≥ 2

/-- The currency token (lines 557-561):
`desc.split("steam_wallet:")[1].split()[0].strip().upper()`, with any
exception (no token after the marker) giving `None`. -/
def extract_currency (desc : String) : Option String :=
  match (pySplitOn desc "steam_wallet:").get? 1 with
  | none => none
  | some rest =>
      match firstWord rest with
      | none => none
      | some tok => some (pyUpper (pyTrim tok))

/-- Oracle inputs of one `handle_new_order` run: whether the entry
`_refresh_token()` call succeeded, the resolved subcategory id
(`get_subcategory_id_safe`, an attribute/remote chain), the result of the
`get_order_amount` extraction heuristics, and the `/rates` response. -/
structure OrderOracle where
  refreshOk : Bool := true
  subcat : Option Int := none
  amtInfo : Option (Rat × String) := none
  rates : Option RatesResp := none

/-- `_nice_refund` (lines 517-528): log the compensation (the
`refundNotice` anchor), message the buyer when a chat id is known — with
the operator-contact variant when `AUTO_REFUND` is off — and issue the
marketplace refund when enabled and an order id is known. -/
def _nice_refund (cfg : Config) (chatId orderId : PyVal) (reason : RefundReason) :
    List Eff :=
  [.refundNotice orderId reason] ++
  (if chatId.truthy then [.sendMessage chatId (.refundNote reason cfg.autoRefund)]
   else []) ++
  (if orderId.truthy && cfg.autoRefund then [.refundCall orderId] else [])

/-- `handle_new_order` (lines 530-619): refresh the token, drop orders of
other subcategories, then validate marker / currency / amount / minimum /
conversion — each failure compensating via `_nice_refund` and creating no
session — and on success index a fresh `waiting_login` session under its
chat, user and composite keys and prompt for the login. -/
def handle_new_order (cfg : Config) (sys : Sys) (now : Nat) (o : Order)
    (orc : OrderOracle) : Sys × List Eff :=
  let effs0 := [Eff.tokenRefresh]
  if !orc.refreshOk then (sys, effs0)
  else if orc.subcat ≠ some CATEGORY_ID then (sys, effs0)
  else
    let chatId := o.chat_id
    let buyerId := o.buyer_id
    let desc := get_description_text o
    if !(containsMarker desc) then
      (sys, effs0 ++ _nice_refund cfg chatId o.id .missingCurrency)
    else
      let currencyOpt := extract_currency desc
      match currencyOpt.bind (fun c => (MIN_AMOUNTS c).map (fun mn => (c, mn))) with
      | none => (sys, effs0 ++ _nice_refund cfg chatId o.id (.badCurrency currencyOpt))
      | some (cur, minAmt) =>
          match orc.amtInfo with
          | none => (sys, effs0 ++ _nice_refund cfg chatId o.id .amountUndetermined)
          | some (amount, _src) =>
              if amount < minAmt then
                (sys, effs0 ++ _nice_refund cfg chatId o.id (.belowMinimum minAmt cur))
              else
                let conv := convert_to_usd cur amount orc.rates
                match conv.1 with
                | none =>
                    (sys, effs0 ++ conv.2 ++ _nice_refund cfg chatId o.id .conversionFailed)
                | some usd =>
                    let ks := _state_keys chatId buyerId o.id
                    let s : Session :=
                      { step := .waitingLogin, createdAt := now,
                        buyerId := buyerId, orderId := o.id, chatId := chatId,
                        amount := amount, currency := cur, usdAmount := usd,
                        login := none, paid := false, keys := ks }
                    let sid := sys.nextId
                    ({ store := dputAll sys.store ks sid,
                       sessions := fun i => if i = sid then some s else sys.sessions i,
                       nextId := sid + 1 },
                     effs0 ++ conv.2 ++
                       [.sendMessage chatId (.orderThanks amount cur usd)])

/-! ## The conversation engine -/

/-- Response of `POST /create_order`: HTTP status and whether the parsed
JSON body carries an `"error"` key (a body that fails to parse counts as
`json_r = {}`, hence no error key). -/
structure CreateResp where
  status : Nat
  hasError : Bool := false
deriving DecidableEq, Repr

/-- Oracle inputs of one `handle_new_message` run: the `/check` verdict per
login, and the `/create_order`, `/pay_order`, `/check_balance` responses. -/
structure MsgOracle where
  loginOk : String → Bool := fun _ => false
  createResp : CreateResp := { status := 200 }
  payStatus : Nat := 200
  balance : BalanceResp := { status := 200, body := some (.jdict (some (some 100))) }

/-- `check_login` (lines 274-284): falsy logins short-circuit to `False`
with no remote call; otherwise `POST /check` is issued and its boolean
result returned (an exception reads as `False` through the oracle). -/
def check_login (login : String) (orc : String → Bool) : Bool × List Eff :=
  if login = "" then (false, [])
  else (orc login, [.checkLoginCall login])

/-- `SESSION_TTL` (line 90). -/
def SESSION_TTL : Nat := 60 * 60

/-- Session resolution of `handle_new_message` (lines 646-653):
`_find_state_for_message`, falling back to indexing `USER_STATES` with the
raw (string) chat id — a key shape `_put_state` never writes. -/
def resolveSession (store : List (String × Nat)) (m : Msg) : Option Nat :=
  match _find_state_for_message store m with
  | some sid => some sid
  | none =>
      match msgChatId m with
      | .vstr c => if c ≠ "" then dget store c else none
      | _ => none

/-- The failure compensation block shared by the create-order and pay-order
failure branches (lines 714-735 and 759-780): classified buyer message,
balance query, conditional category deactivation, then the refund (or the
operator-contact notice when `AUTO_REFUND` is off). -/
def compensationEffs (cfg : Config) (chatId orderId : PyVal) (f : FriendlyMsg)
    (bal : Rat) : List Eff :=
  [.sendMessage chatId (.paymentError f), .balanceCall] ++
  (if bal < cfg.minBalance && cfg.autoDeactivate then [.deactivateCall 1086]
   else []) ++
  (if cfg.autoRefund then [.refundCall orderId]
   else [.sendMessage chatId .refundDisabledContactAdmin])

/-- The `text == "+"` payment branch of the `confirm_login` step
(lines 699-780): the `paid` re-entry guard, then `paid=true` / `step="paying"`
set before `create_order` is issued, the embedded-error check on the create
response, `pay_order` only after a clean create, and the compensation block
plus store removal on either failure (the session is also removed after
success, via `step="finished"`). -/
def payBranch (cfg : Config) (sys : Sys) (sid : Nat) (s : Session)
    (chatId : PyVal) (orc : MsgOracle) : Sys × List Eff :=
  if s.paid then (sys, [.sendMessage chatId .alreadyProcessing])
  else
    let s₁ := { s with paid := true, step := Step.paying }
    let sys₁ := updateSession sys sid s₁
    let login := s.login.getD ""
    let createEff := Eff.createOrderCall sid login s.usdAmount
    if orc.createResp.status ≠ 200 || orc.createResp.hasError then
      ({ sys₁ with store := _pop_state sys₁.store s₁ },
       createEff ::
         compensationEffs cfg chatId s.orderId
           (_friendly_http_error orc.createResp.status) (check_balance orc.balance))
    else if orc.payStatus = 200 then
      let s₂ := { s₁ with step := Step.finished }
      let sys₂ := updateSession sys sid s₂
      ({ sys₂ with store := _pop_state sys₂.store s₂ },
       [createEff, .payOrderCall sid, .sendMessage chatId .successNotice])
    else
      ({ sys₁ with store := _pop_state sys₁.store s₁ },
       createEff :: Eff.payOrderCall sid ::
         compensationEffs cfg chatId s.orderId
           (_friendly_http_error orc.payStatus) (check_balance orc.balance))

/-- The per-step dispatch on a resolved, guard-passing session
(lines 670-802). -/
def stepDispatch (cfg : Config) (sys : Sys) (sid : Nat) (s : Session)
    (chatId : PyVal) (text : String) (orc : MsgOracle) : Sys × List Eff :=
  match s.step with
  | .paying => (sys, [])
  | .finished => (sys, [])
  | .waitingLogin =>
      let login := text
      let chk := check_login login orc.loginOk
      if !chk.1 then
        (sys, chk.2 ++ [.sendMessage chatId (.loginNotFound login)])
      else
        (updateSession sys sid
           { s with login := some login, step := Step.confirmLogin },
         chk.2 ++ [.sendMessage chatId (.loginConfirm login)])
  | .confirmLogin =>
      if text = "+" then payBranch cfg sys sid s chatId orc
      else
        let newLogin := text
        if s.paid then (sys, [.sendMessage chatId .loginChangeTooLate])
        else
          let chk := check_login newLogin orc.loginOk
          if !chk.1 then
            (sys, chk.2 ++ [.sendMessage chatId (.newLoginNotFound newLogin)])
          else
            (updateSession sys sid { s with login := some newLogin },
             chk.2 ++ [.sendMessage chatId (.newLoginConfirm newLogin)])

/-- The guard chain on a resolved session (lines 655-668): cross-identity
isolation, then TTL expiry (remove and ignore), then the step dispatch. -/
def onSession (cfg : Config) (sys : Sys) (now : Nat) (m : Msg) (sid : Nat)
    (s : Session) (text : String) (orc : MsgOracle) : Sys × List Eff :=
  let chatId := pyOr (msgChatId m) s.chatId
  if m.author_id.truthy && s.buyerId.truthy && !(pyEq m.author_id s.buyerId) then
    (sys, [])
  else if now - s.createdAt > SESSION_TTL then
    ({ sys with store := _pop_state sys.store s }, [])
  else
    stepDispatch cfg sys sid s chatId text orc

/-- `handle_new_message` (lines 621-802), one inbound message: extract the
text, resolve the session, then run the guard chain and step dispatch. -/
def handle_new_message (cfg : Config) (sys : Sys) (now : Nat) (m : Msg)
    (orc : MsgOracle) : Sys × List Eff :=
  match msgRawText m with
  | .vnone => (sys, [])
  | .vint _ => (sys, [])
  | .vstr t0 =>
    let text := pyTrim t0
    if text = "" then (sys, [])
    else
      match resolveSession sys.store m with
      | none => (sys, [])
      | some sid =>
        match sys.sessions sid with
        | none => (sys, [])
        | some s => onSession cfg sys now m sid s text orc

/-! ## Event traces -/

/-- One marketplace event as the main loop dispatches it, together with the
oracle inputs consumed while handling it. -/
inductive Event where
  | order (o : Order) (orc : OrderOracle) (now : Nat)
  | msg (m : Msg) (orc : MsgOracle) (now : Nat)

/-- Dispatch of one event (the `runner.listen` loop body, lines 841-852). -/
def stepSys (cfg : Config) (sys : Sys) (e : Event) : Sys × List Eff :=
  match e with
  | .order o orc now => handle_new_order cfg sys now o orc
  | .msg m orc now => handle_new_message cfg sys now m orc

/-- Sequential processing of an event list, concatenating effect traces. -/
def run (cfg : Config) (sys : Sys) : List Event → Sys × List Eff
  | [] => (sys, [])
  | e :: rest =>
      let r := stepSys cfg sys e
      let r2 := run cfg r.1 rest
      (r2.1, r.2 ++ r2.2)

/-- Whether an effect is a `create_order` submission for session `sid`. -/
def isCreateFor (sid : Nat) : Eff → Bool
  | .createOrderCall s _ _ => s = sid
  | _ => false

/-- Whether an effect is a `pay_order` submission for session `sid`. -/
def isPayFor (sid : Nat) : Eff → Bool
  | .payOrderCall s => s = sid
  | _ => false

/-- Number of `create_order` submissions attributed to session `sid` in an
effect trace. -/
def countCreates (effs : List Eff) (sid : Nat) : Nat :=
  effs.countP (isCreateFor sid)

/-- Number of `pay_order` submissions attributed to session `sid` in an
effect trace. -/
def countPays (effs : List Eff) (sid : Nat) : Nat :=
  effs.countP (isPayFor sid)

/-! ## Store membership and reachability -/

theorem mem_dput {d : List (String × Nat)} {k : String} {v : Nat} {e : String × Nat}
    (h : e ∈ dput d k v) : e = (k, v) ∨ e ∈ d := by
  unfold dput at h
  rcases List.mem_cons.mp h with h | h
  · exact Or.inl h
  · exact Or.inr (List.mem_of_mem_filter h)

theorem mem_dputAll {d : List (String × Nat)} {ks : List String} {v : Nat}
    {e : String × Nat} (h : e ∈ dputAll d ks v) :
    e ∈ d ∨ (e.1 ∈ ks ∧ e.2 = v) := by
  induction ks generalizing d with
  | nil => exact Or.inl h
  | cons k tl ih =>
      rcases ih (d := dput d k v) h with h₂ | h₂
      · rcases mem_dput h₂ with h₃ | h₃
        · right
          constructor
          · rw [h₃]; exact List.mem_cons_self k tl
          · rw [h₃]
        · exact Or.inl h₃
      · right
        exact ⟨List.mem_cons_of_mem k h₂.1, h₂.2⟩

theorem mem_dpopAll {d : List (String × Nat)} {ks : List String}
    {e : String × Nat} (h : e ∈ dpopAll d ks) : e ∈ d ∧ e.1 ∉ ks := by
  unfold dpopAll at h
  have := List.mem_filter.mp h
  refine ⟨this.1, ?_⟩
  have h₂ := this.2
  simpa using h₂

/-- A session id is reachable when some store entry carries it. -/
def Reach (store : List (String × Nat)) (sid : Nat) : Prop :=
  ∃ e ∈ store, e.2 = sid

theorem dget_reach {store : List (String × Nat)} {k : String} {sid : Nat}
    (h : dget store k = some sid) : Reach store sid :=
  ⟨(k, sid), dget_mem store k sid h, rfl⟩

/-- Whatever `_find_state_for_message` returns is stored under some key. -/
theorem findState_reach {store : List (String × Nat)} {m : Msg} {sid : Nat}
    (h : _find_state_for_message store m = some sid) : Reach store sid := by
  unfold _find_state_for_message at h
  dsimp only at h
  cases hfs : (_state_keys (msgChatId m) m.author_id m.order_id).findSome?
      (fun k => dget store k) with
  | some sid₂ =>
      rw [hfs] at h
      simp only [Option.some.injEq] at h
      subst h
      obtain ⟨k, _, hk⟩ := List.exists_of_findSome?_eq_some hfs
      exact dget_reach hk
  | none =>
      rw [hfs] at h
      cases hb : normKey m.author_id with
      | none => rw [hb] at h; simp at h
      | some b =>
          rw [hb] at h
          simp only at h
          split at h
          · cases hc : (store.filter
                (fun e => pyStartsWith e.1 ("user:" ++ b))).map (fun e => e.2) with
            | nil => rw [hc] at h; simp at h
            | cons c rest =>
                rw [hc] at h
                simp only [List.head?] at h
                cases h
                have hmem : sid ∈ (store.filter
                    (fun e => pyStartsWith e.1 ("user:" ++ b))).map (fun e => e.2) := by
                  rw [hc]; exact List.mem_cons_self _ _
                obtain ⟨e, he, hev⟩ := List.mem_map.mp hmem
                exact ⟨e, List.mem_of_mem_filter he, hev⟩
          · simp at h

/-- Whatever the message handler resolves is stored under some key. -/
theorem resolveSession_reach {store : List (String × Nat)} {m : Msg} {sid : Nat}
    (h : resolveSession store m = some sid) : Reach store sid := by
  unfold resolveSession at h
  cases hfs : _find_state_for_message store m with
  | some sid₂ =>
      rw [hfs] at h
      cases h
      exact findState_reach hfs
  | none =>
      rw [hfs] at h
      cases hc : msgChatId m with
      | vnone => rw [hc] at h; simp at h
      | vint n => rw [hc] at h; simp at h
      | vstr c =>
          rw [hc] at h
          simp only at h
          split at h
          · exact dget_reach h
          · simp at h

/-- After dropping every binding whose key is in `ks`, a session id all of
whose bindings had keys in `ks` is unreachable. -/
theorem not_reach_dpopAll {store : List (String × Nat)} {ks : List String}
    {sid : Nat} (h : ∀ e ∈ store, e.2 = sid → e.1 ∈ ks) :
    ¬ Reach (dpopAll store ks) sid := by
  rintro ⟨e, he, hev⟩
  obtain ⟨hmem, hnin⟩ := mem_dpopAll he
  exact hnin (h e hmem hev)

/-! ## The system invariant

Every store binding points at an existing session record, under one of the
keys that record registered (`_put_state` is the only writer), the record is
unpaid (every code path that sets `paid` immediately retires the session
from the store), and its id is below the freshness counter. -/

def SysInv (sys : Sys) : Prop :=
  ∀ e ∈ sys.store, ∃ s, sys.sessions e.2 = some s ∧ e.1 ∈ s.keys ∧
    s.paid = false ∧ e.2 < sys.nextId

theorem initSys_inv : SysInv initSys := by
  intro e he
  simp [initSys] at he

theorem reach_facts {sys : Sys} {sid : Nat} {s : Session} (hinv : SysInv sys)
    (hr : Reach sys.store sid) (hs : sys.sessions sid = some s) :
    s.paid = false ∧ sid < sys.nextId := by
  obtain ⟨e, he, hev⟩ := hr
  obtain ⟨s₂, h1, _, h3, h4⟩ := hinv e he
  rw [hev] at h1 h4
  rw [hs] at h1
  cases h1
  exact ⟨h3, h4⟩

theorem reach_dpopAll_mono {d : List (String × Nat)} {ks : List String} {sid : Nat}
    (h : Reach (dpopAll d ks) sid) : Reach d sid := by
  obtain ⟨e, he, hev⟩ := h
  exact ⟨e, (mem_dpopAll he).1, hev⟩

/-- Popping a session whose bindings the invariant controls preserves the
invariant, whatever record the retired id now holds. -/
theorem pop_update_inv (sys : Sys) (sid : Nat) (s : Session) (snew : Session)
    (hinv : SysInv sys) (hs : sys.sessions sid = some s) :
    SysInv { store := dpopAll sys.store s.keys,
             sessions := fun i => if i = sid then some snew else sys.sessions i,
             nextId := sys.nextId } := by
  intro e he
  obtain ⟨hmem, hnin⟩ := mem_dpopAll he
  obtain ⟨s₂, h1, h2, h3, h4⟩ := hinv e hmem
  have hne : e.2 ≠ sid := by
    intro hc
    rw [hc, hs] at h1
    cases h1
    exact hnin h2
  refine ⟨s₂, ?_, h2, h3, h4⟩
  simp only [hne, if_neg, if_false]
  exact h1

/-- Popping all the keys of the session record at `sid` makes `sid`
unreachable. -/
theorem pop_unreach (sys : Sys) (sid : Nat) (s : Session)
    (hinv : SysInv sys) (hs : sys.sessions sid = some s) :
    ¬ Reach (dpopAll sys.store s.keys) sid := by
  apply not_reach_dpopAll
  intro e he hev
  obtain ⟨s₂, h1, h2, _, _⟩ := hinv e he
  rw [hev, hs] at h1
  cases h1
  exact h2

/-- Rewriting the session record at `sid` in place — keys kept, still
unpaid — preserves the invariant. -/
theorem update_inv (sys : Sys) (sid : Nat) (s : Session) (snew : Session)
    (hinv : SysInv sys) (hs : sys.sessions sid = some s)
    (hk : snew.keys = s.keys) (hp : snew.paid = s.paid) :
    SysInv (updateSession sys sid snew) := by
  intro e he
  obtain ⟨s₂, h1, h2, h3, h4⟩ := hinv e he
  by_cases hne : e.2 = sid
  · have hss : s₂ = s := by
      rw [hne, hs] at h1
      cases h1
      rfl
    refine ⟨snew, ?_, ?_, ?_, ?_⟩
    · simp [updateSession, hne]
    · rw [hk, ← hss]
      exact h2
    · rw [hp, ← hss]
      exact h3
    · simpa [updateSession] using h4
  · refine ⟨s₂, ?_, h2, h3, ?_⟩
    · simp only [updateSession, hne, if_neg, if_false]
      exact h1
    · exact h4

theorem pop_only_inv (sys : Sys) (ks : List String) (hinv : SysInv sys) :
    SysInv { sys with store := dpopAll sys.store ks } := by
  intro e he
  exact hinv e (mem_dpopAll he).1

/-! ## Per-branch facts for the message handler -/

theorem comp_counts (cfg : Config) (chatId orderId : PyVal) (f : FriendlyMsg)
    (bal : Rat) (sid : Nat) :
    (compensationEffs cfg chatId orderId f bal).countP (isCreateFor sid) = 0 ∧
    (compensationEffs cfg chatId orderId f bal).countP (isPayFor sid) = 0 := by
  unfold compensationEffs
  split_ifs <;>
    simp [isCreateFor, isPayFor, List.countP_append, List.countP_cons]

theorem payBranch_facts (cfg : Config) (sys : Sys) (sid : Nat) (s : Session)
    (chatId : PyVal) (orc : MsgOracle)
    (hinv : SysInv sys) (hs : sys.sessions sid = some s) :
    SysInv (payBranch cfg sys sid s chatId orc).1 ∧
    (payBranch cfg sys sid s chatId orc).1.nextId = sys.nextId ∧
    (∀ sid₂, countCreates (payBranch cfg sys sid s chatId orc).2 sid₂ ≤ 1 ∧
      countPays (payBranch cfg sys sid s chatId orc).2 sid₂ ≤ 1) ∧
    (∀ sid₂, (0 < countCreates (payBranch cfg sys sid s chatId orc).2 sid₂ ∨
              0 < countPays (payBranch cfg sys sid s chatId orc).2 sid₂) →
      sid₂ = sid ∧ ¬ Reach (payBranch cfg sys sid s chatId orc).1.store sid₂) ∧
    (∀ sid₂, Reach (payBranch cfg sys sid s chatId orc).1.store sid₂ →
      Reach sys.store sid₂) := by
  unfold payBranch
  dsimp only
  split
  · -- re-entry guard: `paid` already true, only a notice is sent
    refine ⟨hinv, rfl, ?_, ?_, fun _ h => h⟩
    · intro sid₂
      constructor <;> simp [countCreates, countPays, isCreateFor, isPayFor]
    · intro sid₂ h
      rcases h with h | h <;>
        simp [countCreates, countPays, isCreateFor, isPayFor] at h
  · -- fresh payment attempt
    split
    · -- create_order failed: compensation, session retired
      refine ⟨pop_update_inv sys sid s _ hinv hs, rfl, ?_, ?_, ?_⟩
      · intro sid₂
        obtain ⟨hc, hp⟩ := comp_counts cfg chatId s.orderId
          (_friendly_http_error orc.createResp.status) (check_balance orc.balance) sid₂
        constructor
        · simp only [countCreates, List.countP_cons] at *
          rw [hc]
          split_ifs <;> simp
        · simp only [countPays, List.countP_cons] at *
          rw [hp]
          simp [isPayFor]
      · intro sid₂ h
        obtain ⟨hc, hp⟩ := comp_counts cfg chatId s.orderId
          (_friendly_http_error orc.createResp.status) (check_balance orc.balance) sid₂
        have heq : sid₂ = sid := by
          rcases h with h | h
          · simp only [countCreates, List.countP_cons] at h
            rw [hc] at h
            by_cases hee : sid = sid₂
            · exact hee.symm
            · simp [isCreateFor, hee] at h
          · simp only [countPays, List.countP_cons] at h
            rw [hp] at h
            simp [isPayFor] at h
        refine ⟨heq, ?_⟩
        rw [heq]
        exact pop_unreach sys sid s hinv hs
      · intro sid₂ h
        exact reach_dpopAll_mono h
    · split
      · -- pay_order succeeded: success notice, session retired
        refine ⟨pop_update_inv sys sid s _ hinv hs, rfl, ?_, ?_, ?_⟩
        · intro sid₂
          constructor <;>
            simp [countCreates, countPays, isCreateFor, isPayFor,
              List.countP_cons] <;> split_ifs <;> simp
        · intro sid₂ h
          have heq : sid₂ = sid := by
            rcases h with h | h <;>
              · simp only [countCreates, countPays, List.countP_cons,
                  List.countP_nil, isCreateFor, isPayFor] at h
                by_cases hee : sid = sid₂
                · exact hee.symm
                · simp [hee] at h
          refine ⟨heq, ?_⟩
          rw [heq]
          exact pop_unreach sys sid s hinv hs
        · intro sid₂ h
          exact reach_dpopAll_mono h
      · -- pay_order failed: compensation, session retired
        refine ⟨pop_update_inv sys sid s _ hinv hs, rfl, ?_, ?_, ?_⟩
        · intro sid₂
          obtain ⟨hc, hp⟩ := comp_counts cfg chatId s.orderId
            (_friendly_http_error orc.payStatus) (check_balance orc.balance) sid₂
          constructor
          · simp only [countCreates, List.countP_cons] at *
            rw [hc]
            simp only [isPayFor, isCreateFor]
            split_ifs <;> simp_all
          · simp only [countPays, List.countP_cons] at *
            rw [hp]
            simp only [isPayFor, isCreateFor]
            split_ifs <;> simp_all
        · intro sid₂ h
          obtain ⟨hc, hp⟩ := comp_counts cfg chatId s.orderId
            (_friendly_http_error orc.payStatus) (check_balance orc.balance) sid₂
          have heq : sid₂ = sid := by
            rcases h with h | h
            · simp only [countCreates, List.countP_cons] at h
              rw [hc] at h
              by_cases hee : sid = sid₂
              · exact hee.symm
              · simp [isCreateFor, isPayFor, hee] at h
            · simp only [countPays, List.countP_cons] at h
              rw [hp] at h
              by_cases hee : sid = sid₂
              · exact hee.symm
              · simp [isCreateFor, isPayFor, hee] at h
          refine ⟨heq, ?_⟩
          rw [heq]
          exact pop_unreach sys sid s hinv hs
        · intro sid₂ h
          exact reach_dpopAll_mono h

theorem checkLogin_counts (l : String) (f : String → Bool) (sid : Nat) :
    (check_login l f).2.countP (isCreateFor sid) = 0 ∧
    (check_login l f).2.countP (isPayFor sid) = 0 := by
  unfold check_login
  split_ifs <;> simp [isCreateFor, isPayFor]

/-- The common fact bundle for a handler branch that leaves the system
untouched and emits no payment calls. -/
theorem pair_facts_unchanged (sys : Sys) (effs : List Eff) (Q : Nat → Prop)
    (hinv : SysInv sys)
    (hc : ∀ sid₂, effs.countP (isCreateFor sid₂) = 0)
    (hp : ∀ sid₂, effs.countP (isPayFor sid₂) = 0) :
    SysInv sys ∧ sys.nextId = sys.nextId ∧
    (∀ sid₂, countCreates effs sid₂ ≤ 1 ∧ countPays effs sid₂ ≤ 1) ∧
    (∀ sid₂, (0 < countCreates effs sid₂ ∨ 0 < countPays effs sid₂) → Q sid₂) ∧
    (∀ sid₂, Reach sys.store sid₂ → Reach sys.store sid₂) := by
  refine ⟨hinv, rfl, ?_, ?_, fun _ h => h⟩
  · intro sid₂
    rw [countCreates, countPays, hc sid₂, hp sid₂]
    exact ⟨Nat.zero_le 1, Nat.zero_le 1⟩
  · intro sid₂ h
    rcases h with h | h
    · rw [countCreates, hc sid₂] at h
      exact absurd h (by simp)
    · rw [countPays, hp sid₂] at h
      exact absurd h (by simp)

/-- The common fact bundle for a handler branch that rewrites the current
session record in place (keys kept, `paid` kept) and emits no payment
calls. -/
theorem pair_facts_update (sys : Sys) (sid : Nat) (s snew : Session)
    (effs : List Eff) (Q : Nat → Prop)
    (hinv : SysInv sys) (hs : sys.sessions sid = some s)
    (hk : snew.keys = s.keys) (hp : snew.paid = s.paid)
    (hc : ∀ sid₂, effs.countP (isCreateFor sid₂) = 0)
    (hcp : ∀ sid₂, effs.countP (isPayFor sid₂) = 0) :
    SysInv (updateSession sys sid snew) ∧
    (updateSession sys sid snew).nextId = sys.nextId ∧
    (∀ sid₂, countCreates effs sid₂ ≤ 1 ∧ countPays effs sid₂ ≤ 1) ∧
    (∀ sid₂, (0 < countCreates effs sid₂ ∨ 0 < countPays effs sid₂) → Q sid₂) ∧
    (∀ sid₂, Reach (updateSession sys sid snew).store sid₂ → Reach sys.store sid₂) := by
  refine ⟨update_inv sys sid s snew hinv hs hk hp, rfl, ?_, ?_, fun _ h => h⟩
  · intro sid₂
    rw [countCreates, countPays, hc sid₂, hcp sid₂]
    exact ⟨Nat.zero_le 1, Nat.zero_le 1⟩
  · intro sid₂ h
    rcases h with h | h
    · rw [countCreates, hc sid₂] at h
      exact absurd h (by simp)
    · rw [countPays, hcp sid₂] at h
      exact absurd h (by simp)

theorem stepDispatch_facts (cfg : Config) (sys : Sys) (sid : Nat) (s : Session)
    (chatId : PyVal) (text : String) (orc : MsgOracle)
    (hinv : SysInv sys) (hs : sys.sessions sid = some s) :
    SysInv (stepDispatch cfg sys sid s chatId text orc).1 ∧
    (stepDispatch cfg sys sid s chatId text orc).1.nextId = sys.nextId ∧
    (∀ sid₂, countCreates (stepDispatch cfg sys sid s chatId text orc).2 sid₂ ≤ 1 ∧
      countPays (stepDispatch cfg sys sid s chatId text orc).2 sid₂ ≤ 1) ∧
    (∀ sid₂, (0 < countCreates (stepDispatch cfg sys sid s chatId text orc).2 sid₂ ∨
              0 < countPays (stepDispatch cfg sys sid s chatId text orc).2 sid₂) →
      sid₂ = sid ∧ ¬ Reach (stepDispatch cfg sys sid s chatId text orc).1.store sid₂) ∧
    (∀ sid₂, Reach (stepDispatch cfg sys sid s chatId text orc).1.store sid₂ →
      Reach sys.store sid₂) := by
  unfold stepDispatch
  dsimp only
  split
  · exact pair_facts_unchanged sys [] _ hinv (by simp) (by simp)
  · exact pair_facts_unchanged sys [] _ hinv (by simp) (by simp)
  · -- waiting_login
    split
    · refine pair_facts_unchanged sys _ _ hinv ?_ ?_ <;>
        · intro sid₂
          obtain ⟨h1, h2⟩ := checkLogin_counts text orc.loginOk sid₂
          simp [List.countP_append, List.countP_cons, h1, h2, isCreateFor, isPayFor]
    · refine pair_facts_update sys sid s _ _ _ hinv hs rfl rfl ?_ ?_ <;>
        · intro sid₂
          obtain ⟨h1, h2⟩ := checkLogin_counts text orc.loginOk sid₂
          simp [List.countP_append, List.countP_cons, h1, h2, isCreateFor, isPayFor]
  · -- confirm_login
    split
    · exact payBranch_facts cfg sys sid s chatId orc hinv hs
    · split
      · exact pair_facts_unchanged sys _ _ hinv
          (by intro sid₂; simp [List.countP_cons, isCreateFor])
          (by intro sid₂; simp [List.countP_cons, isPayFor])
      · split
        · refine pair_facts_unchanged sys _ _ hinv ?_ ?_ <;>
            · intro sid₂
              obtain ⟨h1, h2⟩ := checkLogin_counts text orc.loginOk sid₂
              simp [List.countP_append, List.countP_cons, h1, h2, isCreateFor, isPayFor]
        · refine pair_facts_update sys sid s _ _ _ hinv hs rfl rfl ?_ ?_ <;>
            · intro sid₂
              obtain ⟨h1, h2⟩ := checkLogin_counts text orc.loginOk sid₂
              simp [List.countP_append, List.countP_cons, h1, h2, isCreateFor, isPayFor]

theorem onSession_facts (cfg : Config) (sys : Sys) (now : Nat) (m : Msg)
    (sid : Nat) (s : Session) (text : String) (orc : MsgOracle)
    (hinv : SysInv sys) (hs : sys.sessions sid = some s) :
    SysInv (onSession cfg sys now m sid s text orc).1 ∧
    (onSession cfg sys now m sid s text orc).1.nextId = sys.nextId ∧
    (∀ sid₂, countCreates (onSession cfg sys now m sid s text orc).2 sid₂ ≤ 1 ∧
      countPays (onSession cfg sys now m sid s text orc).2 sid₂ ≤ 1) ∧
    (∀ sid₂, (0 < countCreates (onSession cfg sys now m sid s text orc).2 sid₂ ∨
              0 < countPays (onSession cfg sys now m sid s text orc).2 sid₂) →
      sid₂ = sid ∧ ¬ Reach (onSession cfg sys now m sid s text orc).1.store sid₂) ∧
    (∀ sid₂, Reach (onSession cfg sys now m sid s text orc).1.store sid₂ →
      Reach sys.store sid₂) := by
  unfold onSession
  dsimp only
  split
  · exact pair_facts_unchanged sys [] _ hinv (by simp) (by simp)
  · split
    · -- TTL expiry: pop, no effects
      refine ⟨pop_only_inv sys s.keys hinv, rfl, ?_, ?_, ?_⟩
      · intro sid₂
        simp [countCreates, countPays]
      · intro sid₂ h
        rcases h with h | h <;> simp [countCreates, countPays] at h
      · intro sid₂ h
        exact reach_dpopAll_mono h
    · exact stepDispatch_facts cfg sys sid s _ text orc hinv hs

theorem handleNewMessage_facts (cfg : Config) (sys : Sys) (now : Nat) (m : Msg)
    (orc : MsgOracle) (hinv : SysInv sys) :
    SysInv (handle_new_message cfg sys now m orc).1 ∧
    (handle_new_message cfg sys now m orc).1.nextId = sys.nextId ∧
    (∀ sid₂, countCreates (handle_new_message cfg sys now m orc).2 sid₂ ≤ 1 ∧
      countPays (handle_new_message cfg sys now m orc).2 sid₂ ≤ 1) ∧
    (∀ sid₂, (0 < countCreates (handle_new_message cfg sys now m orc).2 sid₂ ∨
              0 < countPays (handle_new_message cfg sys now m orc).2 sid₂) →
      Reach sys.store sid₂ ∧
        ¬ Reach (handle_new_message cfg sys now m orc).1.store sid₂) ∧
    (∀ sid₂, Reach (handle_new_message cfg sys now m orc).1.store sid₂ →
      Reach sys.store sid₂) := by
  unfold handle_new_message
  dsimp only
  split
  · exact pair_facts_unchanged sys [] _ hinv (by simp) (by simp)
  · exact pair_facts_unchanged sys [] _ hinv (by simp) (by simp)
  · split
    · exact pair_facts_unchanged sys [] _ hinv (by simp) (by simp)
    · split
      · exact pair_facts_unchanged sys [] _ hinv (by simp) (by simp)
      · rename_i sid hres
        split
        · exact pair_facts_unchanged sys [] _ hinv (by simp) (by simp)
        · rename_i s hsess
          obtain ⟨h1, h2, h3, h4, h5⟩ :=
            onSession_facts cfg sys now m sid s _ orc hinv hsess
          refine ⟨h1, h2, h3, ?_, h5⟩
          intro sid₂ h
          obtain ⟨heq, hun⟩ := h4 sid₂ h
          subst heq
          exact ⟨resolveSession_reach hres, hun⟩

/-! ## Facts for the order handler -/

@[simp] theorem niceRefund_countCreate (cfg : Config) (c o : PyVal)
    (r : RefundReason) (sid : Nat) :
    (_nice_refund cfg c o r).countP (isCreateFor sid) = 0 := by
  unfold _nice_refund
  split_ifs <;> simp [isCreateFor, List.countP_append, List.countP_cons]

@[simp] theorem niceRefund_countPay (cfg : Config) (c o : PyVal)
    (r : RefundReason) (sid : Nat) :
    (_nice_refund cfg c o r).countP (isPayFor sid) = 0 := by
  unfold _nice_refund
  split_ifs <;> simp [isPayFor, List.countP_append, List.countP_cons]

@[simp] theorem conv_countCreate (cur : String) (amount : Rat)
    (o : Option RatesResp) (sid : Nat) :
    (convert_to_usd cur amount o).2.countP (isCreateFor sid) = 0 := by
  rcases o with _ | r
  · unfold convert_to_usd
    split_ifs <;> simp [isCreateFor, List.countP_cons]
  · unfold convert_to_usd
    by_cases h : pyUpper cur = "USD" <;> by_cases h2 : r.status ≠ 200 <;>
      simp [h, h2, isCreateFor, List.countP_cons]

@[simp] theorem conv_countPay (cur : String) (amount : Rat)
    (o : Option RatesResp) (sid : Nat) :
    (convert_to_usd cur amount o).2.countP (isPayFor sid) = 0 := by
  rcases o with _ | r
  · unfold convert_to_usd
    split_ifs <;> simp [isPayFor, List.countP_cons]
  · unfold convert_to_usd
    by_cases h : pyUpper cur = "USD" <;> by_cases h2 : r.status ≠ 200 <;>
      simp [h, h2, isPayFor, List.countP_cons]

theorem order_facts_unchanged (sys : Sys) (effs : List Eff) (hinv : SysInv sys)
    (hc : ∀ sid, effs.countP (isCreateFor sid) = 0)
    (hp : ∀ sid, effs.countP (isPayFor sid) = 0) :
    SysInv sys ∧ sys.nextId ≤ sys.nextId ∧
    (∀ sid, countCreates effs sid = 0 ∧ countPays effs sid = 0) ∧
    (∀ sid, Reach sys.store sid → Reach sys.store sid ∨ sid = sys.nextId) :=
  ⟨hinv, le_refl _, fun sid => ⟨hc sid, hp sid⟩, fun _ h => Or.inl h⟩

theorem handleNewOrder_facts (cfg : Config) (sys : Sys) (now : Nat) (o : Order)
    (orc : OrderOracle) (hinv : SysInv sys) :
    SysInv (handle_new_order cfg sys now o orc).1 ∧
    sys.nextId ≤ (handle_new_order cfg sys now o orc).1.nextId ∧
    (∀ sid, countCreates (handle_new_order cfg sys now o orc).2 sid = 0 ∧
      countPays (handle_new_order cfg sys now o orc).2 sid = 0) ∧
    (∀ sid, Reach (handle_new_order cfg sys now o orc).1.store sid →
      Reach sys.store sid ∨ sid = sys.nextId) := by
  unfold handle_new_order
  dsimp only
  split
  · exact order_facts_unchanged sys _ hinv
      (by intro sid; simp [isCreateFor, List.countP_cons])
      (by intro sid; simp [isPayFor, List.countP_cons])
  · split
    · exact order_facts_unchanged sys _ hinv
        (by intro sid; simp [isCreateFor, List.countP_cons])
        (by intro sid; simp [isPayFor, List.countP_cons])
    · split
      · exact order_facts_unchanged sys _ hinv
          (by intro sid; simp [isCreateFor, List.countP_append, List.countP_cons])
          (by intro sid; simp [isPayFor, List.countP_append, List.countP_cons])
      · split
        · exact order_facts_unchanged sys _ hinv
            (by intro sid; simp [isCreateFor, List.countP_append, List.countP_cons])
            (by intro sid; simp [isPayFor, List.countP_append, List.countP_cons])
        · split
          · exact order_facts_unchanged sys _ hinv
              (by intro sid; simp [isCreateFor, List.countP_append, List.countP_cons])
              (by intro sid; simp [isPayFor, List.countP_append, List.countP_cons])
          · split
            · exact order_facts_unchanged sys _ hinv
                (by intro sid; simp [isCreateFor, List.countP_append, List.countP_cons])
                (by intro sid; simp [isPayFor, List.countP_append, List.countP_cons])
            · split
              · exact order_facts_unchanged sys _ hinv
                  (by intro sid; simp [isCreateFor, List.countP_append, List.countP_cons])
                  (by intro sid; simp [isPayFor, List.countP_append, List.countP_cons])
              · -- success: a fresh session is registered
                rename_i x2 cur minAmt hcm x1 amount src hams hlt xc usd husd
                refine ⟨?_, ?_, ?_, ?_⟩
                · intro e he
                  rcases mem_dputAll he with hmem | ⟨hk, hv⟩
                  · obtain ⟨s₂, h1, h2, h3, h4⟩ := hinv e hmem
                    have hne : e.2 ≠ sys.nextId := Nat.ne_of_lt h4
                    refine ⟨s₂, ?_, h2, h3, ?_⟩
                    · simp only [hne, if_neg, if_false]
                      exact h1
                    · exact Nat.lt_succ_of_lt h4
                  · use { step := Step.waitingLogin, createdAt := now, buyerId := o.buyer_id, orderId := o.id, chatId := o.chat_id, amount := amount, currency := cur, usdAmount := usd, login := none, paid := false, keys := _state_keys o.chat_id o.buyer_id o.id }
                    refine ⟨?_, hk, rfl, ?_⟩
                    · simp only [hv, if_true]
                    · rw [hv]
                      exact Nat.lt_succ_self _
                · exact Nat.le_succ _
                · intro sid
                  constructor <;>
                    simp [countCreates, countPays, isCreateFor, isPayFor,
                      List.countP_append, List.countP_cons]
                · intro sid h
                  obtain ⟨e, he, hev⟩ := h
                  rcases mem_dputAll he with hmem | ⟨hk, hv⟩
                  · exact Or.inl ⟨e, hmem, hev⟩
                  · right
                    rw [← hev, hv]

/-! ## The trace invariant -/

theorem reach_lt {sys : Sys} {sid : Nat} (hinv : SysInv sys)
    (hr : Reach sys.store sid) : sid < sys.nextId := by
  obtain ⟨e, he, hev⟩ := hr
  obtain ⟨_, _, _, _, h4⟩ := hinv e he
  rw [hev] at h4
  exact h4

theorem countCreates_append (a b : List Eff) (sid : Nat) :
    countCreates (a ++ b) sid = countCreates a sid + countCreates b sid := by
  simp [countCreates, List.countP_append]

theorem countPays_append (a b : List Eff) (sid : Nat) :
    countPays (a ++ b) sid = countPays a sid + countPays b sid := by
  simp [countPays, List.countP_append]

/-- The running invariant of a whole event trace: the store invariant holds,
each session has seen at most one create and one pay submission, a session
still in the store has seen none, and ids not yet allocated have seen
none. -/
def TraceOK (sys : Sys) (effs : List Eff) : Prop :=
  SysInv sys ∧
  ∀ sid, (countCreates effs sid ≤ 1 ∧ countPays effs sid ≤ 1) ∧
    (Reach sys.store sid → countCreates effs sid = 0 ∧ countPays effs sid = 0) ∧
    (sys.nextId ≤ sid → countCreates effs sid = 0 ∧ countPays effs sid = 0)

theorem stepSys_preserves (cfg : Config) (sys : Sys) (effs : List Eff)
    (e : Event) (h : TraceOK sys effs) :
    TraceOK (stepSys cfg sys e).1 (effs ++ (stepSys cfg sys e).2) := by
  obtain ⟨hinv, hcount⟩ := h
  cases e with
  | order o orc now =>
      simp only [stepSys]
      obtain ⟨h1, h2, h3, h4⟩ := handleNewOrder_facts cfg sys now o orc hinv
      refine ⟨h1, ?_⟩
      intro sid
      obtain ⟨hle, hre, hnx⟩ := hcount sid
      obtain ⟨hc0, hp0⟩ := h3 sid
      rw [countCreates_append, countPays_append, hc0, hp0]
      refine ⟨⟨by omega, by omega⟩, ?_, ?_⟩
      · intro hr
        rcases h4 sid hr with hr₂ | hr₂
        · obtain ⟨ha, hb⟩ := hre hr₂
          omega
        · obtain ⟨ha, hb⟩ := hnx (le_of_eq hr₂.symm)
          omega
      · intro hge
        obtain ⟨ha, hb⟩ := hnx (le_trans h2 hge)
        omega
  | msg m orc now =>
      simp only [stepSys]
      obtain ⟨h1, h2, h3, h4, h5⟩ := handleNewMessage_facts cfg sys now m orc hinv
      refine ⟨h1, ?_⟩
      intro sid
      obtain ⟨hle, hre, hnx⟩ := hcount sid
      obtain ⟨hc1, hp1⟩ := h3 sid
      rw [countCreates_append, countPays_append]
      have hnew : 0 < countCreates (handle_new_message cfg sys now m orc).2 sid ∨
          0 < countPays (handle_new_message cfg sys now m orc).2 sid →
          Reach sys.store sid ∧
            ¬ Reach (handle_new_message cfg sys now m orc).1.store sid := h4 sid
      constructor
      · by_cases hz : 0 < countCreates (handle_new_message cfg sys now m orc).2 sid ∨
            0 < countPays (handle_new_message cfg sys now m orc).2 sid
        · obtain ⟨hpre, _⟩ := hnew hz
          obtain ⟨ha, hb⟩ := hre hpre
          omega
        · push_neg at hz
          omega
      refine ⟨?_, ?_⟩
      · intro hr
        have hpre := h5 sid hr
        obtain ⟨ha, hb⟩ := hre hpre
        have hz : countCreates (handle_new_message cfg sys now m orc).2 sid = 0 ∧
            countPays (handle_new_message cfg sys now m orc).2 sid = 0 := by
          by_contra hc
          have : 0 < countCreates (handle_new_message cfg sys now m orc).2 sid ∨
              0 < countPays (handle_new_message cfg sys now m orc).2 sid := by omega
          exact (hnew this).2 hr
        omega
      · intro hge
        rw [h2] at hge
        obtain ⟨ha, hb⟩ := hnx hge
        have hz : countCreates (handle_new_message cfg sys now m orc).2 sid = 0 ∧
            countPays (handle_new_message cfg sys now m orc).2 sid = 0 := by
          by_contra hc
          have hpos : 0 < countCreates (handle_new_message cfg sys now m orc).2 sid ∨
              0 < countPays (handle_new_message cfg sys now m orc).2 sid := by omega
          have hpre := (hnew hpos).1
          exact absurd (reach_lt hinv hpre) (by omega)
        omega

theorem run_preserves (cfg : Config) (evs : List Event) :
    ∀ (sys : Sys) (effs : List Eff), TraceOK sys effs →
      TraceOK (run cfg sys evs).1 (effs ++ (run cfg sys evs).2) := by
  induction evs with
  | nil =>
      intro sys effs h
      simpa [run] using h
  | cons e rest ih =>
      intro sys effs h
      have hstep := stepSys_preserves cfg sys effs e h
      have hrest := ih (stepSys cfg sys e).1 (effs ++ (stepSys cfg sys e).2) hstep
      show TraceOK (run cfg sys (e :: rest)).1 (effs ++ (run cfg sys (e :: rest)).2)
      have hrun1 : (run cfg sys (e :: rest)).1 =
          (run cfg (stepSys cfg sys e).1 rest).1 := rfl
      have hrun2 : (run cfg sys (e :: rest)).2 =
          (stepSys cfg sys e).2 ++ (run cfg (stepSys cfg sys e).1 rest).2 := rfl
      rw [hrun1, hrun2, ← List.append_assoc]
      exact hrest

theorem initTraceOK : TraceOK initSys [] := by
  refine ⟨initSys_inv, ?_⟩
  intro sid
  refine ⟨⟨?_, ?_⟩, ?_, ?_⟩ <;> simp [countCreates, countPays, initSys, Reach]

/-! ## Reduction lemmas for the message handler -/

theorem handleNewMessage_resolved (cfg : Config) (sys : Sys) (now : Nat)
    (m : Msg) (orc : MsgOracle) (sid : Nat) (s : Session) (t : String)
    (ht : msgRawText m = .vstr t) (htne : ¬ pyTrim t = "")
    (hres : resolveSession sys.store m = some sid)
    (hs : sys.sessions sid = some s) :
    handle_new_message cfg sys now m orc =
      onSession cfg sys now m sid s (pyTrim t) orc := by
  unfold handle_new_message
  rw [ht]
  dsimp only
  rw [if_neg htne, hres]
  dsimp only
  rw [hs]

theorem onSession_alive (cfg : Config) (sys : Sys) (now : Nat) (m : Msg)
    (sid : Nat) (s : Session) (text : String) (orc : MsgOracle)
    (hguard : ¬ (m.author_id.truthy && s.buyerId.truthy &&
      !(pyEq m.author_id s.buyerId)) = true)
    (hexp : ¬ now - s.createdAt > SESSION_TTL) :
    onSession cfg sys now m sid s text orc =
      stepDispatch cfg sys sid s (pyOr (msgChatId m) s.chatId) text orc := by
  unfold onSession
  rw [if_neg hguard, if_neg hexp]

theorem onSession_expired (cfg : Config) (sys : Sys) (now : Nat) (m : Msg)
    (sid : Nat) (s : Session) (text : String) (orc : MsgOracle)
    (hguard : ¬ (m.author_id.truthy && s.buyerId.truthy &&
      !(pyEq m.author_id s.buyerId)) = true)
    (hexp : now - s.createdAt > SESSION_TTL) :
    onSession cfg sys now m sid s text orc =
      ({ sys with store := _pop_state sys.store s }, []) := by
  unfold onSession
  rw [if_neg hguard, if_pos hexp]

theorem stepDispatch_plus (cfg : Config) (sys : Sys) (sid : Nat) (s : Session)
    (chatId : PyVal) (orc : MsgOracle) (hstep : s.step = .confirmLogin) :
    stepDispatch cfg sys sid s chatId "+" orc = payBranch cfg sys sid s chatId orc := by
  unfold stepDispatch
  rw [hstep]
  rfl

/-! ## Session record evolution -/

/-- Position of a step along `waiting_login → confirm_login → paying →
finished`. -/
def stepRank : Step → Nat
  | .waitingLogin => 0
  | .confirmLogin => 1
  | .paying => 2
  | .finished => 3

/-- Every session record either survives a message untouched or takes one of
the handler's forward transitions: login acceptance out of `waiting_login`,
login replacement inside `confirm_login` (non-`"+"` text only), or the
`"+"`-triggered move to `paying`/`finished` from an unpaid
`confirm_login`. -/
theorem sessions_evolution (cfg : Config) (sys : Sys) (now : Nat) (m : Msg)
    (orc : MsgOracle) :
    ∀ sid s, sys.sessions sid = some s →
    ∃ s₂, (handle_new_message cfg sys now m orc).1.sessions sid = some s₂ ∧
      (s₂ = s ∨
       (s.step = .waitingLogin ∧
          ∃ l, s₂ = { s with login := some l, step := Step.confirmLogin }) ∨
       (s.step = .confirmLogin ∧
          (∃ t, msgRawText m = .vstr t ∧ ¬ pyTrim t = "+") ∧
          ∃ l, s₂ = { s with login := some l }) ∨
       (s.step = .confirmLogin ∧ s.paid = false ∧
          (∃ t, msgRawText m = .vstr t ∧ pyTrim t = "+") ∧
          (s₂ = { s with paid := true, step := Step.paying } ∨
           s₂ = { s with paid := true, step := Step.finished }))) := by
  intro sid s hs
  unfold handle_new_message
  dsimp only
  split
  · exact ⟨s, hs, Or.inl rfl⟩
  · exact ⟨s, hs, Or.inl rfl⟩
  · rename_i t0 hraw
    split
    · exact ⟨s, hs, Or.inl rfl⟩
    · split
      · exact ⟨s, hs, Or.inl rfl⟩
      · rename_i rsid hres
        split
        · exact ⟨s, hs, Or.inl rfl⟩
        · rename_i s₀ hsess
          unfold onSession
          dsimp only
          split
          · exact ⟨s, hs, Or.inl rfl⟩
          · split
            · exact ⟨s, hs, Or.inl rfl⟩
            · unfold stepDispatch
              dsimp only
              split
              · exact ⟨s, hs, Or.inl rfl⟩
              · exact ⟨s, hs, Or.inl rfl⟩
              · -- waiting_login
                rename_i hstep0
                split
                · exact ⟨s, hs, Or.inl rfl⟩
                · by_cases hid : sid = rsid
                  · subst hid
                    rw [hs] at hsess
                    injection hsess with hss
                    obtain rfl : s₀ = s := hss.symm
                    exact ⟨{ s₀ with login := some (pyTrim t0), step := Step.confirmLogin },
                      by simp [updateSession],
                      Or.inr (Or.inl ⟨hstep0, pyTrim t0, rfl⟩)⟩
                  · exact ⟨s, by simpa [updateSession, hid] using hs, Or.inl rfl⟩
              · -- confirm_login
                rename_i hstep0
                split
                · -- exact "+": the payment branch
                  rename_i hplus
                  unfold payBranch
                  dsimp only
                  split
                  · exact ⟨s, hs, Or.inl rfl⟩
                  · rename_i hpaid
                    have hpf : s₀.paid = false := by simpa using hpaid
                    split
                    · -- create_order failed
                      by_cases hid : sid = rsid
                      · subst hid
                        rw [hs] at hsess
                        injection hsess with hss
                        obtain rfl : s₀ = s := hss.symm
                        exact ⟨{ s₀ with paid := true, step := Step.paying },
                          by simp [updateSession],
                          Or.inr (Or.inr (Or.inr
                            ⟨hstep0, hpf, ⟨t0, hraw, hplus⟩, Or.inl rfl⟩))⟩
                      · exact ⟨s, by simpa [updateSession, hid] using hs, Or.inl rfl⟩
                    · split
                      · -- pay_order succeeded
                        by_cases hid : sid = rsid
                        · subst hid
                          rw [hs] at hsess
                          injection hsess with hss
                          obtain rfl : s₀ = s := hss.symm
                          exact ⟨{ s₀ with paid := true, step := Step.finished },
                            by simp [updateSession],
                            Or.inr (Or.inr (Or.inr
                              ⟨hstep0, hpf, ⟨t0, hraw, hplus⟩, Or.inr rfl⟩))⟩
                        · exact ⟨s, by simpa [updateSession, hid] using hs, Or.inl rfl⟩
                      · -- pay_order failed
                        by_cases hid : sid = rsid
                        · subst hid
                          rw [hs] at hsess
                          injection hsess with hss
                          obtain rfl : s₀ = s := hss.symm
                          exact ⟨{ s₀ with paid := true, step := Step.paying },
                            by simp [updateSession],
                            Or.inr (Or.inr (Or.inr
                              ⟨hstep0, hpf, ⟨t0, hraw, hplus⟩, Or.inl rfl⟩))⟩
                        · exact ⟨s, by simpa [updateSession, hid] using hs, Or.inl rfl⟩
                · -- replacement login
                  rename_i hplusne
                  split
                  · exact ⟨s, hs, Or.inl rfl⟩
                  · split
                    · exact ⟨s, hs, Or.inl rfl⟩
                    · by_cases hid : sid = rsid
                      · subst hid
                        rw [hs] at hsess
                        injection hsess with hss
                        obtain rfl : s₀ = s := hss.symm
                        exact ⟨{ s₀ with login := some (pyTrim t0) },
                          by simp [updateSession],
                          Or.inr (Or.inr (Or.inl
                            ⟨hstep0, ⟨t0, hraw, hplusne⟩, pyTrim t0, rfl⟩))⟩
                      · exact ⟨s, by simpa [updateSession, hid] using hs, Or.inl rfl⟩

/-- A message resolving to a session already in `paying` or `finished`
produces no effects and leaves every session record unchanged. -/
theorem suppressed_no_effects (cfg : Config) (sys : Sys) (now : Nat) (m : Msg)
    (orc : MsgOracle) (sid : Nat) (s : Session)
    (hres : resolveSession sys.store m = some sid)
    (hs : sys.sessions sid = some s)
    (hstep : s.step = .paying ∨ s.step = .finished) :
    (handle_new_message cfg sys now m orc).2 = [] ∧
    (handle_new_message cfg sys now m orc).1.sessions = sys.sessions := by
  unfold handle_new_message
  dsimp only
  split
  · exact ⟨rfl, rfl⟩
  · exact ⟨rfl, rfl⟩
  · split
    · exact ⟨rfl, rfl⟩
    · rw [hres]
      dsimp only
      rw [hs]
      dsimp only
      unfold onSession
      dsimp only
      split
      · exact ⟨rfl, rfl⟩
      · split
        · exact ⟨rfl, rfl⟩
        · unfold stepDispatch
          rcases hstep with h | h <;> rw [h] <;> exact ⟨rfl, rfl⟩

/-- `create_order` failure in the payment branch: the exact compensation
sequence, with the session retired to `paying` and removed from the
store. -/
theorem payBranch_createFail (cfg : Config) (sys : Sys) (sid : Nat)
    (s : Session) (chatId : PyVal) (orc : MsgOracle)
    (hpaid : s.paid = false)
    (hfail : orc.createResp.status ≠ 200 ∨ orc.createResp.hasError = true) :
    payBranch cfg sys sid s chatId orc =
      ({ store := dpopAll sys.store s.keys,
         sessions := fun i =>
           if i = sid then some { s with paid := true, step := Step.paying }
           else sys.sessions i,
         nextId := sys.nextId },
       Eff.createOrderCall sid (s.login.getD "") s.usdAmount ::
         compensationEffs cfg chatId s.orderId
           (_friendly_http_error orc.createResp.status) (check_balance orc.balance)) := by
  unfold payBranch
  rw [if_neg (by simp [hpaid])]
  dsimp only
  rw [if_pos (by rcases hfail with h | h <;> simp [h])]
  rfl

/-- Clean create followed by a 200 from `pay_order`: success notice,
`step=finished`, session removed. -/
theorem payBranch_success (cfg : Config) (sys : Sys) (sid : Nat)
    (s : Session) (chatId : PyVal) (orc : MsgOracle)
    (hpaid : s.paid = false)
    (hok : orc.createResp.status = 200) (herr : orc.createResp.hasError = false)
    (hpay : orc.payStatus = 200) :
    payBranch cfg sys sid s chatId orc =
      ({ store := dpopAll sys.store s.keys,
         sessions := fun i =>
           if i = sid then some { s with paid := true, step := Step.finished }
           else sys.sessions i,
         nextId := sys.nextId },
       [Eff.createOrderCall sid (s.login.getD "") s.usdAmount,
        Eff.payOrderCall sid, Eff.sendMessage chatId .successNotice]) := by
  unfold payBranch
  rw [if_neg (by simp [hpaid])]
  dsimp only
  rw [if_neg (by simp [hok, herr]), if_pos hpay]
  rfl

/-- Clean create but `pay_order` failure: the same compensation sequence,
after the `pay_order` attempt. -/
theorem payBranch_payFail (cfg : Config) (sys : Sys) (sid : Nat)
    (s : Session) (chatId : PyVal) (orc : MsgOracle)
    (hpaid : s.paid = false)
    (hok : orc.createResp.status = 200) (herr : orc.createResp.hasError = false)
    (hpay : orc.payStatus ≠ 200) :
    payBranch cfg sys sid s chatId orc =
      ({ store := dpopAll sys.store s.keys,
         sessions := fun i =>
           if i = sid then some { s with paid := true, step := Step.paying }
           else sys.sessions i,
         nextId := sys.nextId },
       Eff.createOrderCall sid (s.login.getD "") s.usdAmount ::
         Eff.payOrderCall sid ::
         compensationEffs cfg chatId s.orderId
           (_friendly_http_error orc.payStatus) (check_balance orc.balance)) := by
  unfold payBranch
  rw [if_neg (by simp [hpaid])]
  dsimp only
  rw [if_neg (by simp [hok, herr]), if_neg hpay]
  rfl

/-- Whether an effect is the balance query opening the compensation
sequence. -/
def isBalanceCall : Eff → Bool
  | .balanceCall => true
  | _ => false

theorem comp_balance_count (cfg : Config) (chatId orderId : PyVal)
    (f : FriendlyMsg) (bal : Rat) :
    (compensationEffs cfg chatId orderId f bal).countP isBalanceCall = 1 := by
  unfold compensationEffs
  split_ifs <;> simp [isBalanceCall, List.countP_append, List.countP_cons]

/-- `pay_order` is attempted only after a 200, error-free create. -/
theorem payBranch_payOnlyIfCreateOk (cfg : Config) (sys : Sys) (sid : Nat)
    (s : Session) (chatId : PyVal) (orc : MsgOracle) (sid₂ : Nat)
    (hmem : Eff.payOrderCall sid₂ ∈ (payBranch cfg sys sid s chatId orc).2) :
    orc.createResp.status = 200 ∧ orc.createResp.hasError = false := by
  unfold payBranch at hmem
  dsimp only at hmem
  split at hmem
  · simp at hmem
  · split at hmem
    · rename_i hcond
      exfalso
      rcases List.mem_cons.mp hmem with h | h
      · exact Eff.noConfusion h
      · have := (comp_counts cfg chatId s.orderId
          (_friendly_http_error orc.createResp.status) (check_balance orc.balance) sid₂).2
        have hpos := List.countP_pos_iff (p := isPayFor sid₂)
          (l := compensationEffs cfg chatId s.orderId
            (_friendly_http_error orc.createResp.status) (check_balance orc.balance))
        rw [this] at hpos
        have : 0 < 0 := hpos.mpr ⟨_, h, by simp [isPayFor]⟩
        omega
    · rename_i hcond
      constructor
      · by_contra hne
        exact hcond (by simp [hne])
      · by_contra hne
        have : orc.createResp.hasError = true := by
          cases he : orc.createResp.hasError
          · exact absurd he hne
          · rfl
        exact hcond (by simp [this])

/-! ## Compensation counting and validation predicates -/

/-- Whether an effect is an invocation of `_nice_refund` (its entry log
anchor). -/
def isRefundNotice : Eff → Bool
  | .refundNotice _ _ => true
  | _ => false

theorem niceRefund_notice_count (cfg : Config) (c o : PyVal) (r : RefundReason) :
    (_nice_refund cfg c o r).countP isRefundNotice = 1 := by
  unfold _nice_refund
  split_ifs <;> simp [isRefundNotice, List.countP_append, List.countP_cons]

theorem conv_notice_count (cur : String) (amount : Rat) (o : Option RatesResp) :
    (convert_to_usd cur amount o).2.countP isRefundNotice = 0 := by
  rcases o with _ | r
  · unfold convert_to_usd
    split_ifs <;> simp [isRefundNotice, List.countP_cons]
  · unfold convert_to_usd
    by_cases h : pyUpper cur = "USD" <;> by_cases h2 : r.status ≠ 200 <;>
      simp [h, h2, isRefundNotice, List.countP_cons]

/-- The validation gauntlet of `handle_new_order`, as a predicate on the
order and the collaborator outcomes: description without the
`steam_wallet:` marker, unsupported (or unextractable) currency token,
undetermined amount, amount below the per-currency minimum, or failed
conversion to the settlement currency. -/
def failsValidation (o : Order) (orc : OrderOracle) : Bool :=
  let desc := get_description_text o
  if !(containsMarker desc) then true
  else
    match (extract_currency desc).bind
        (fun c => (MIN_AMOUNTS c).map (fun mn => (c, mn))) with
    | none => true
    | some (cur, minAmt) =>
        match orc.amtInfo with
        | none => true
        | some (amount, _) =>
            if amount < minAmt then true
            else ((convert_to_usd cur amount orc.rates).1).isNone

/-- Whether the `/check_balance` interaction yields no usable balance: an
error status, an unparsable body, or a body `float()` rejects. -/
def balanceUnavailable (r : BalanceResp) : Bool :=
  (400 ≤ r.status && r.status < 600) ||
  match r.body with
  | none => true
  | some (.jdict (some (some _))) => false
  | some (.jdict (some none)) => true
  | some (.jdict none) => true
  | some (.jvalue (some _)) => false
  | some (.jvalue none) => true

theorem checkBalance_zero_of_unavailable (r : BalanceResp)
    (h : balanceUnavailable r = true) : check_balance r = 0 := by
  unfold balanceUnavailable at h
  unfold check_balance
  by_cases hst : 400 ≤ r.status ∧ r.status < 600
  · rw [if_pos hst]
  · rw [if_neg hst]
    simp only [Bool.or_eq_true, Bool.and_eq_true, decide_eq_true_eq] at h
    rcases h with h | h
    · exact absurd h hst
    · rcases hb : r.body with _ | b
      · rfl
      · rw [hb] at h
        cases b with
        | jdict f =>
            rcases f with _ | g
            · rfl
            · rcases g with _ | q
              · rfl
              · simp at h
        | jvalue v =>
            rcases v with _ | q
            · rfl
            · simp at h

/-- When the queried balance is below the floor and auto-deactivation is on,
the compensation block deactivates the configured category. -/
theorem comp_deactivates (cfg : Config) (chatId orderId : PyVal)
    (f : FriendlyMsg) (bal : Rat)
    (hlow : bal < cfg.minBalance) (hauto : cfg.autoDeactivate = true) :
    Eff.deactivateCall 1086 ∈ compensationEffs cfg chatId orderId f bal := by
  unfold compensationEffs
  rw [if_pos (by simp [hlow, hauto])]
  simp

/-! ## Demo instances used by witnesses -/

def demoSession : Session :=
  { step := Step.confirmLogin, createdAt := 0, buyerId := PyVal.vint 5,
    orderId := PyVal.vint 3, chatId := PyVal.vint 10, amount := 20,
    currency := "RUB", usdAmount := 1, login := some "gabe", paid := false,
    keys := ["chat:10", "user:5", "user:5:order:3"] }

def demoStore : List (String × Nat) :=
  [("chat:10", 0), ("user:5", 0), ("user:5:order:3", 0)]

def demoSys : Sys :=
  { store := demoStore,
    sessions := fun i => if i = 0 then some demoSession else none,
    nextId := 1 }

def demoMsgPlus : Msg :=
  { author_id := PyVal.vint 5, chat_id := PyVal.vint 10, text := PyVal.vstr "+" }

def demoOrcCreateFail : MsgOracle :=
  { createResp := { status := 500 }, balance := { status := 500, body := none } }

def demoAuthOracle : Nat → Nat := fun n => if n = 0 then 401 else 403

/-! ## Claims -/

/-- C1: starting from the empty store, no event trace — duplicate `"+"`
messages included — makes the handlers issue more than one `create_order`
submission, nor more than one `pay_order` submission, for the same session:
the handler sets `paid`/`step="paying"` and retires the session within the
same dispatch that issues the payment calls, so every later message finds
no session to pay again. -/
theorem C1_payment_submitted_at_most_once (cfg : Config) (evs : List Event)
    (sid : Nat) :
    countCreates (run cfg initSys evs).2 sid ≤ 1 ∧
    countPays (run cfg initSys evs).2 sid ≤ 1 := by
  obtain ⟨_, hc⟩ := run_preserves cfg evs initSys [] initTraceOK
  have h₂ := (hc sid).1
  simpa using h₂

/-- C7: `_pop_state` removes the session from every key recorded in its
`_keys` list, is idempotent, and afterwards `_find_state_for_message` never
returns the removed session (given that, as `_put_state` guarantees, the
session was only stored under its recorded keys). -/
theorem C7_remove_idempotent_unfindable (store : List (String × Nat))
    (s : Session) (sid : Nat) :
    (∀ k ∈ s.keys, dget (_pop_state store s) k = none) ∧
    _pop_state (_pop_state store s) s = _pop_state store s ∧
    ((∀ e ∈ store, e.2 = sid → e.1 ∈ s.keys) →
      ∀ m : Msg, _find_state_for_message (_pop_state store s) m ≠ some sid) := by
  refine ⟨?_, ?_, ?_⟩
  · intro k hk
    simp [_pop_state, dget_dpopAll, hk]
  · simp [_pop_state, dpopAll, List.filter_filter]
  · intro hctl m hfind
    exact not_reach_dpopAll hctl (findState_reach hfind)

theorem C7_witness :
    ("chat:10" ∈ demoSession.keys ∧
      dget (_pop_state demoStore demoSession) "chat:10" = none) ∧
    _pop_state (_pop_state demoStore demoSession) demoSession =
      _pop_state demoStore demoSession ∧
    ((∀ e ∈ demoStore, e.2 = 0 → e.1 ∈ demoSession.keys) ∧
      _find_state_for_message (_pop_state demoStore demoSession) demoMsgPlus ≠ some 0) := by
  obtain ⟨h1, h2, h3⟩ := C7_remove_idempotent_unfindable demoStore demoSession 0
  exact ⟨⟨by decide, h1 "chat:10" (by decide)⟩, h2,
    ⟨by decide, h3 (by decide) demoMsgPlus⟩⟩

/-- C8: a provider call through `_request_with_refresh` that is answered
with 401 or 403 refreshes the token exactly once and retries the identical
request exactly once, returning the second response as-is (no further
retries, whatever that second status is); any other first status is
returned with no refresh and no retry. -/
theorem C8_refresh_once_and_retry_once (path : String) (oracle : Nat → Nat) :
    (isAuthFailure (oracle 0) = true →
      _request_with_refresh path true oracle =
        (oracle 1,
         [.httpRequest path 0, .tokenFetch, .httpRequest path 1])) ∧
    (isAuthFailure (oracle 0) = false →
      _request_with_refresh path true oracle = (oracle 0, [.httpRequest path 0])) := by
  constructor <;> intro h <;> unfold _request_with_refresh <;> simp [h]

theorem C8_witness :
    (isAuthFailure (demoAuthOracle 0) = true ∧
      _request_with_refresh "/check" true demoAuthOracle =
        (403, [.httpRequest "/check" 0, .tokenFetch, .httpRequest "/check" 1])) ∧
    (isAuthFailure 500 = false ∧
      _request_with_refresh "/check" true (fun _ => 500) =
        (500, [.httpRequest "/check" 0])) :=
  ⟨⟨by decide, (C8_refresh_once_and_retry_once "/check" demoAuthOracle).1 (by decide)⟩,
   ⟨by decide, (C8_refresh_once_and_retry_once "/check" (fun _ => 500)).2 (by decide)⟩⟩

/-- C9: `convert_to_usd` is the identity on the settlement currency — for a
currency equal to USD case-insensitively it returns the amount unchanged and
issues no `/rates` call — while every other currency goes through the
remote conversion call. -/
theorem C9_usd_identity (cur : String) (amount : Rat) (oracle : Option RatesResp) :
    (pyUpper cur = "USD" →
      convert_to_usd cur amount oracle = (some amount, [])) ∧
    (pyUpper cur ≠ "USD" →
      Eff.ratesCall (pyUpper cur) amount ∈ (convert_to_usd cur amount oracle).2) := by
  constructor
  · intro h
    unfold convert_to_usd
    rw [if_pos h]
  · intro h
    unfold convert_to_usd
    rw [if_neg h]
    rcases oracle with _ | r
    · simp
    · dsimp only
      split_ifs <;> simp

theorem C9_witness :
    (pyUpper "usd" = "USD" ∧ convert_to_usd "usd" 5 none = (some 5, [])) ∧
    (pyUpper "rub" ≠ "USD" ∧
      Eff.ratesCall (pyUpper "rub") 5 ∈ (convert_to_usd "rub" 5 none).2) :=
  ⟨⟨by decide, (C9_usd_identity "usd" 5 none).1 (by decide)⟩,
   ⟨by decide, (C9_usd_identity "rub" 5 none).2 (by decide)⟩⟩

/-- C3: a new order in the configured category that fails validation —
missing `steam_wallet:` marker, unsupported currency token, undetermined
amount, amount below the per-currency minimum, or failed conversion —
creates no session (`USER_STATES` and the whole system are left unchanged)
and invokes `_nice_refund` exactly once. -/
theorem C3_invalid_order_no_session_one_refund (cfg : Config) (sys : Sys)
    (now : Nat) (o : Order) (orc : OrderOracle)
    (hrf : orc.refreshOk = true)
    (hsub : orc.subcat = some CATEGORY_ID)
    (hfail : failsValidation o orc = true) :
    (handle_new_order cfg sys now o orc).1 = sys ∧
    (handle_new_order cfg sys now o orc).2.countP isRefundNotice = 1 := by
  unfold handle_new_order
  dsimp only
  rw [if_neg (by simp [hrf]), if_neg (by simp [hsub])]
  unfold failsValidation at hfail
  dsimp only at hfail
  cases hm : containsMarker (get_description_text o) with
  | false =>
      rw [if_pos (by simp [hm])]
      exact ⟨rfl, by
        simp [List.countP_append, List.countP_cons, isRefundNotice,
          niceRefund_notice_count]⟩
  | true =>
      rw [if_neg (by simp [hm])]
      rw [if_neg (by simp [hm])] at hfail
      cases hcur : (extract_currency (get_description_text o)).bind
          (fun c => (MIN_AMOUNTS c).map (fun mn => (c, mn))) with
      | none =>
          exact ⟨rfl, by
            simp [List.countP_append, List.countP_cons, isRefundNotice,
              niceRefund_notice_count]⟩
      | some p =>
          obtain ⟨cur, minAmt⟩ := p
          rw [hcur] at hfail
          dsimp only at hfail ⊢
          cases hamt : orc.amtInfo with
          | none =>
              exact ⟨rfl, by
                simp [List.countP_append, List.countP_cons, isRefundNotice,
                  niceRefund_notice_count]⟩
          | some q =>
              obtain ⟨amount, src⟩ := q
              rw [hamt] at hfail
              dsimp only at hfail ⊢
              by_cases hlt : amount < minAmt
              · rw [if_pos hlt]
                exact ⟨rfl, by
                  simp [List.countP_append, List.countP_cons, isRefundNotice,
                    niceRefund_notice_count]⟩
              · rw [if_neg hlt] at hfail
                rw [if_neg hlt]
                cases hconv : (convert_to_usd cur amount orc.rates).1 with
                | none =>
                    exact ⟨rfl, by
                      simp [List.countP_append, List.countP_cons, isRefundNotice,
                        niceRefund_notice_count, conv_notice_count]⟩
                | some usd =>
                    rw [hconv] at hfail
                    simp at hfail

def demoBadOrder : Order :=
  { id := PyVal.vint 3, chat_id := PyVal.vint 10, buyer_id := PyVal.vint 5,
    full_description := some "steam_wallet: xyz amount 20" }

def demoBadOrc : OrderOracle := { subcat := some 1086 }

theorem C3_witness :
    (demoBadOrc.refreshOk = true ∧ demoBadOrc.subcat = some CATEGORY_ID ∧
      failsValidation demoBadOrder demoBadOrc = true) ∧
    (handle_new_order {} initSys 0 demoBadOrder demoBadOrc).1 = initSys ∧
    (handle_new_order {} initSys 0 demoBadOrder demoBadOrc).2.countP isRefundNotice = 1 :=
  ⟨⟨rfl, rfl, by decide⟩,
   C3_invalid_order_no_session_one_refund {} initSys 0 demoBadOrder demoBadOrc
     rfl rfl (by decide)⟩

/-- C5: the `step` field only advances along
`waiting_login → confirm_login → paying → finished` and is never regressed
by any message; a message for a session in `paying` or `finished` leaves the
record untouched and produces no effects; a replacement login received in
`confirm_login` keeps the step at `confirm_login`. -/
theorem C5_step_only_advances (cfg : Config) (sys : Sys) (now : Nat) (m : Msg)
    (orc : MsgOracle) :
    (∀ sid s s₂, sys.sessions sid = some s →
      (handle_new_message cfg sys now m orc).1.sessions sid = some s₂ →
      stepRank s.step ≤ stepRank s₂.step) ∧
    (∀ sid s, sys.sessions sid = some s →
      (s.step = .paying ∨ s.step = .finished) →
      (handle_new_message cfg sys now m orc).1.sessions sid = some s) ∧
    (∀ sid s, resolveSession sys.store m = some sid →
      sys.sessions sid = some s →
      (s.step = .paying ∨ s.step = .finished) →
      (handle_new_message cfg sys now m orc).2 = []) ∧
    (∀ sid s s₂ t, sys.sessions sid = some s → s.step = .confirmLogin →
      msgRawText m = .vstr t → ¬ pyTrim t = "+" →
      (handle_new_message cfg sys now m orc).1.sessions sid = some s₂ →
      s₂.step = .confirmLogin) := by
  refine ⟨?_, ?_, ?_, ?_⟩
  · intro sid s s₂ hs hpost
    obtain ⟨s₃, hpost₂, hcases⟩ := sessions_evolution cfg sys now m orc sid s hs
    rw [hpost₂] at hpost
    injection hpost with he
    subst he
    rcases hcases with rfl | ⟨hw, l, rfl⟩ | ⟨hc, _, l, rfl⟩ | ⟨hc, _, _, rfl | rfl⟩
    · exact le_refl _
    · rw [hw]; exact Nat.le_of_lt_succ (by simp [stepRank])
    · exact le_refl _
    · rw [hc]; simp [stepRank]
    · rw [hc]; simp [stepRank]
  · intro sid s hs hterm
    obtain ⟨s₃, hpost₂, hcases⟩ := sessions_evolution cfg sys now m orc sid s hs
    rcases hcases with rfl | ⟨hw, _, _⟩ | ⟨hc, _, _, _⟩ | ⟨hc, _, _, _⟩
    · exact hpost₂
    · rcases hterm with h | h <;> rw [h] at hw <;> exact Step.noConfusion hw
    · rcases hterm with h | h <;> rw [h] at hc <;> exact Step.noConfusion hc
    · rcases hterm with h | h <;> rw [h] at hc <;> exact Step.noConfusion hc
  · intro sid s hres hs hterm
    exact (suppressed_no_effects cfg sys now m orc sid s hres hs hterm).1
  · intro sid s s₂ t hs hc ht hne hpost
    obtain ⟨s₃, hpost₂, hcases⟩ := sessions_evolution cfg sys now m orc sid s hs
    rw [hpost₂] at hpost
    injection hpost with he
    subst he
    rcases hcases with rfl | ⟨hw, _, _⟩ | ⟨_, _, l, rfl⟩ | ⟨_, _, ⟨t₂, ht₂, hplus₂⟩, _⟩
    · exact hc
    · rw [hc] at hw; exact Step.noConfusion hw
    · exact hc
    · rw [ht] at ht₂
      injection ht₂ with he₂
      exact absurd (he₂ ▸ hplus₂) hne

def demoPayingSession : Session := { demoSession with step := Step.paying }

def demoSysPaying : Sys :=
  { demoSys with sessions := fun i => if i = 0 then some demoPayingSession else none }

theorem C5_witness :
    (demoSysPaying.sessions 0 = some demoPayingSession ∧
      demoPayingSession.step = Step.paying ∧
      resolveSession demoSysPaying.store demoMsgPlus = some 0) ∧
    (handle_new_message {} demoSysPaying 0 demoMsgPlus {}).1.sessions 0 =
      some demoPayingSession ∧
    (handle_new_message {} demoSysPaying 0 demoMsgPlus {}).2 = [] := by
  obtain ⟨h1, h2, h3, h4⟩ := C5_step_only_advances {} demoSysPaying 0 demoMsgPlus {}
  exact ⟨⟨rfl, rfl, by decide⟩,
    h2 0 demoPayingSession rfl (Or.inl rfl),
    h3 0 demoPayingSession (by decide) rfl (Or.inl rfl)⟩

/-- C6: a message for a session older than the TTL (3600 s) removes the
session from the store under all of its recorded keys and is ignored — no
reply, no effects, every session record untouched; afterwards (assuming the
store invariant) no lookup resolves that session again. -/
theorem C6_ttl_expiry (cfg : Config) (sys : Sys) (now : Nat) (m : Msg)
    (orc : MsgOracle) (sid : Nat) (s : Session) (t : String)
    (ht : msgRawText m = .vstr t) (htne : ¬ pyTrim t = "")
    (hres : resolveSession sys.store m = some sid)
    (hs : sys.sessions sid = some s)
    (hguard : ¬ (m.author_id.truthy && s.buyerId.truthy &&
      !(pyEq m.author_id s.buyerId)) = true)
    (hexp : now - s.createdAt > SESSION_TTL) :
    handle_new_message cfg sys now m orc =
      ({ sys with store := dpopAll sys.store s.keys }, []) ∧
    (SysInv sys → ∀ m₂ : Msg,
      resolveSession (handle_new_message cfg sys now m orc).1.store m₂ ≠ some sid) := by
  have h1 := handleNewMessage_resolved cfg sys now m orc sid s t ht htne hres hs
  have h2 := onSession_expired cfg sys now m sid s (pyTrim t) orc hguard hexp
  constructor
  · rw [h1, h2]
    rfl
  · intro hinv m₂ hfind
    rw [h1, h2] at hfind
    exact pop_unreach sys sid s hinv hs (resolveSession_reach hfind)

def demoMsgLate : Msg :=
  { author_id := PyVal.vint 5, chat_id := PyVal.vint 10, text := PyVal.vstr "hello" }

theorem C6_witness :
    (msgRawText demoMsgLate = PyVal.vstr "hello" ∧
      resolveSession demoSys.store demoMsgLate = some 0 ∧
      demoSys.sessions 0 = some demoSession ∧
      99999 - demoSession.createdAt > SESSION_TTL) ∧
    handle_new_message {} demoSys 99999 demoMsgLate {} =
      ({ demoSys with store := dpopAll demoSys.store demoSession.keys }, []) := by
  have h := C6_ttl_expiry {} demoSys 99999 demoMsgLate {} 0 demoSession "hello"
    rfl (by decide) (by decide) rfl (by decide) (by decide)
  exact ⟨⟨rfl, by decide, rfl, by decide⟩, h.1⟩

/-- C2: in the payment phase, `pay_order` is attempted only after
`create_order` returned HTTP 200 with no embedded error; on a failure of
either call the handler emits exactly the compensation sequence — the
classified buyer message, the balance query, category deactivation when the
balance is below the floor with `AUTO_DEACTIVATE` on, then the refund (or
the operator notice when `AUTO_REFUND` is off) — removes the session from
the store, and the compensation sequence runs at most once per attempt. -/
theorem C2_two_phase_payment_compensation (cfg : Config) (sys : Sys)
    (now : Nat) (m : Msg) (orc : MsgOracle) (sid : Nat) (s : Session)
    (t : String)
    (ht : msgRawText m = .vstr t) (htne : ¬ pyTrim t = "")
    (hres : resolveSession sys.store m = some sid)
    (hs : sys.sessions sid = some s)
    (hguard : ¬ (m.author_id.truthy && s.buyerId.truthy &&
      !(pyEq m.author_id s.buyerId)) = true)
    (hnexp : ¬ now - s.createdAt > SESSION_TTL)
    (hstep : s.step = .confirmLogin) (hplus : pyTrim t = "+")
    (hpaid : s.paid = false) :
    (∀ sid₂, Eff.payOrderCall sid₂ ∈ (handle_new_message cfg sys now m orc).2 →
      orc.createResp.status = 200 ∧ orc.createResp.hasError = false) ∧
    ((orc.createResp.status ≠ 200 ∨ orc.createResp.hasError = true) →
      handle_new_message cfg sys now m orc =
        ({ store := dpopAll sys.store s.keys,
           sessions := fun i =>
             if i = sid then some { s with paid := true, step := Step.paying }
             else sys.sessions i,
           nextId := sys.nextId },
         Eff.createOrderCall sid (s.login.getD "") s.usdAmount ::
           compensationEffs cfg (pyOr (msgChatId m) s.chatId) s.orderId
             (_friendly_http_error orc.createResp.status) (check_balance orc.balance))) ∧
    (orc.createResp.status = 200 → orc.createResp.hasError = false →
      orc.payStatus ≠ 200 →
      handle_new_message cfg sys now m orc =
        ({ store := dpopAll sys.store s.keys,
           sessions := fun i =>
             if i = sid then some { s with paid := true, step := Step.paying }
             else sys.sessions i,
           nextId := sys.nextId },
         Eff.createOrderCall sid (s.login.getD "") s.usdAmount ::
           Eff.payOrderCall sid ::
           compensationEffs cfg (pyOr (msgChatId m) s.chatId) s.orderId
             (_friendly_http_error orc.payStatus) (check_balance orc.balance))) ∧
    (handle_new_message cfg sys now m orc).2.countP isBalanceCall ≤ 1 := by
  have h1 := handleNewMessage_resolved cfg sys now m orc sid s t ht htne hres hs
  rw [hplus] at h1
  have h2 := onSession_alive cfg sys now m sid s "+" orc hguard hnexp
  have h3 := stepDispatch_plus cfg sys sid s (pyOr (msgChatId m) s.chatId) orc hstep
  have hred : handle_new_message cfg sys now m orc =
      payBranch cfg sys sid s (pyOr (msgChatId m) s.chatId) orc := by
    rw [h1, h2, h3]
  refine ⟨?_, ?_, ?_, ?_⟩
  · intro sid₂ hmem
    rw [hred] at hmem
    exact payBranch_payOnlyIfCreateOk cfg sys sid s _ orc sid₂ hmem
  · intro hfailc
    rw [hred]
    exact payBranch_createFail cfg sys sid s _ orc hpaid hfailc
  · intro hok herr hpayne
    rw [hred]
    exact payBranch_payFail cfg sys sid s _ orc hpaid hok herr hpayne
  · rw [hred]
    by_cases hfailc : orc.createResp.status ≠ 200 ∨ orc.createResp.hasError = true
    · rw [payBranch_createFail cfg sys sid s _ orc hpaid hfailc]
      simp [List.countP_cons, isBalanceCall, comp_balance_count]
    · push_neg at hfailc
      obtain ⟨hok, hne⟩ := hfailc
      have herr : orc.createResp.hasError = false := by
        cases he : orc.createResp.hasError
        · rfl
        · exact absurd he hne
      by_cases hpay : orc.payStatus = 200
      · rw [payBranch_success cfg sys sid s _ orc hpaid hok herr hpay]
        simp [List.countP_cons, isBalanceCall]
      · rw [payBranch_payFail cfg sys sid s _ orc hpaid hok herr hpay]
        simp [List.countP_cons, isBalanceCall, comp_balance_count]

theorem C2_witness :
    (msgRawText demoMsgPlus = PyVal.vstr "+" ∧
      resolveSession demoSys.store demoMsgPlus = some 0 ∧
      demoSys.sessions 0 = some demoSession ∧
      demoSession.step = Step.confirmLogin ∧ demoSession.paid = false ∧
      demoOrcCreateFail.createResp.status ≠ 200) ∧
    (handle_new_message {} demoSys 0 demoMsgPlus demoOrcCreateFail).2.countP
      isBalanceCall ≤ 1 := by
  have h := C2_two_phase_payment_compensation {} demoSys 0 demoMsgPlus
    demoOrcCreateFail 0 demoSession "+" rfl (by decide) (by decide) rfl
    (by decide) (by decide) rfl (by decide) rfl
  exact ⟨⟨rfl, by decide, rfl, rfl, rfl, by decide⟩, h.2.2.2⟩

/-- C10: `check_balance` returns 0.0 whenever the balance request fails or
its response cannot be parsed, so in the payment-failure path a broken
balance endpoint reads as a balance below any positive `MIN_BALANCE` floor
and, with `AUTO_DEACTIVATE` enabled, triggers category deactivation. -/
theorem C10_balance_failsafe_zero :
    (∀ r : BalanceResp, balanceUnavailable r = true → check_balance r = 0) ∧
    (∀ (cfg : Config) (sys : Sys) (now : Nat) (m : Msg) (orc : MsgOracle)
        (sid : Nat) (s : Session) (t : String),
      msgRawText m = .vstr t → ¬ pyTrim t = "" →
      resolveSession sys.store m = some sid →
      sys.sessions sid = some s →
      ¬ (m.author_id.truthy && s.buyerId.truthy &&
        !(pyEq m.author_id s.buyerId)) = true →
      ¬ now - s.createdAt > SESSION_TTL →
      s.step = .confirmLogin → pyTrim t = "+" → s.paid = false →
      (orc.createResp.status ≠ 200 ∨ orc.createResp.hasError = true) →
      balanceUnavailable orc.balance = true →
      0 < cfg.minBalance → cfg.autoDeactivate = true →
      Eff.deactivateCall 1086 ∈ (handle_new_message cfg sys now m orc).2) := by
  refine ⟨checkBalance_zero_of_unavailable, ?_⟩
  intro cfg sys now m orc sid s t ht htne hres hs hguard hnexp hstep hplus hpaid
    hfailc hbal hmin hauto
  have h1 := handleNewMessage_resolved cfg sys now m orc sid s t ht htne hres hs
  rw [hplus] at h1
  have h2 := onSession_alive cfg sys now m sid s "+" orc hguard hnexp
  have h3 := stepDispatch_plus cfg sys sid s (pyOr (msgChatId m) s.chatId) orc hstep
  rw [h1, h2, h3, payBranch_createFail cfg sys sid s _ orc hpaid hfailc]
  have hzero : check_balance orc.balance = 0 :=
    checkBalance_zero_of_unavailable orc.balance hbal
  refine List.mem_cons_of_mem _ ?_
  exact comp_deactivates cfg _ s.orderId _ _ (by rw [hzero]; exact hmin) hauto

theorem C10_witness :
    (balanceUnavailable demoOrcCreateFail.balance = true ∧
      check_balance demoOrcCreateFail.balance = 0) ∧
    Eff.deactivateCall 1086 ∈
      (handle_new_message {} demoSys 0 demoMsgPlus demoOrcCreateFail).2 := by
  obtain ⟨hz, hmem⟩ := C10_balance_failsafe_zero
  exact ⟨⟨by decide, hz demoOrcCreateFail.balance (by decide)⟩,
    hmem {} demoSys 0 demoMsgPlus demoOrcCreateFail 0 demoSession "+"
      rfl (by decide) (by decide) rfl (by decide) (by decide) rfl (by decide)
      rfl (by decide) (by decide) (by norm_num) rfl⟩

/-! ## C4: lookup order -/

def c4SessionA : Session :=
  { step := Step.waitingLogin, createdAt := 0, buyerId := PyVal.vint 2,
    orderId := PyVal.vint 3, chatId := PyVal.vint 1, amount := 20,
    currency := "RUB", usdAmount := 1, login := none, paid := false,
    keys := ["chat:1", "user:2", "user:2:order:3"] }

def c4SessionB : Session :=
  { c4SessionA with chatId := PyVal.vint 4, keys := ["chat:4", "user:2", "user:2:order:3"] }

/-- The store after `_put_state(A)` then `_put_state(B)` for two orders of
the same buyer: B overwrote the shared user and composite keys. -/
def c4Store : List (String × Nat) :=
  [("chat:1", 0), ("user:2", 1), ("user:2:order:3", 1), ("chat:4", 1)]

def c4Msg : Msg :=
  { author_id := PyVal.vint 2, chat_id := PyVal.vint 1, order_id := PyVal.vint 3 }

/-- C4 counterexample: for this message all three identity keys are
applicable and the composite key `user:2:order:3` holds session 1, yet
`_find_state_for_message` returns session 0, the one under the chat key —
the lookup tries the chat key first, not the composite key. -/
theorem C4_counterexample :
    _state_keys (msgChatId c4Msg) c4Msg.author_id c4Msg.order_id =
      ["chat:1", "user:2", "user:2:order:3"] ∧
    dget c4Store "user:2:order:3" = some 1 ∧
    _find_state_for_message c4Store c4Msg = some 0 ∧ (0 : Nat) ≠ 1 := by decide

/-- C4 (amended): session lookup tries the identity keys in the order chat
key, then user key, then composite key, returning the first hit; when every
direct key misses, it returns the unique store entry whose key starts with
`user:<normalized author>` if there is exactly one such entry, and "not
found" otherwise (in particular when the user prefix matches more than one
distinct session). -/
theorem C4_amended_lookup_order (store : List (String × Nat)) (m : Msg) :
    (∀ c sid, normKey (msgChatId m) = some c →
      dget store ("chat:" ++ c) = some sid →
      _find_state_for_message store m = some sid) ∧
    (∀ b sid, (∀ c, normKey (msgChatId m) = some c →
        dget store ("chat:" ++ c) = none) →
      normKey m.author_id = some b →
      dget store ("user:" ++ b) = some sid →
      _find_state_for_message store m = some sid) ∧
    (∀ b o sid, (∀ c, normKey (msgChatId m) = some c →
        dget store ("chat:" ++ c) = none) →
      normKey m.author_id = some b → normKey m.order_id = some o →
      dget store ("user:" ++ b) = none →
      dget store ("user:" ++ b ++ ":order:" ++ o) = some sid →
      _find_state_for_message store m = some sid) ∧
    (∀ b, (∀ k ∈ _state_keys (msgChatId m) m.author_id m.order_id,
        dget store k = none) →
      normKey m.author_id = some b →
      ((store.filter (fun e => pyStartsWith e.1 ("user:" ++ b))).map
        (fun e => e.2)).length = 1 →
      _find_state_for_message store m =
        ((store.filter (fun e => pyStartsWith e.1 ("user:" ++ b))).map
          (fun e => e.2)).head?) ∧
    (∀ b, (∀ k ∈ _state_keys (msgChatId m) m.author_id m.order_id,
        dget store k = none) →
      normKey m.author_id = some b →
      ((store.filter (fun e => pyStartsWith e.1 ("user:" ++ b))).map
        (fun e => e.2)).length ≠ 1 →
      _find_state_for_message store m = none) ∧
    ((∀ k ∈ _state_keys (msgChatId m) m.author_id m.order_id,
        dget store k = none) →
      normKey m.author_id = none →
      _find_state_for_message store m = none) := by
  refine ⟨?_, ?_, ?_, ?_, ?_, ?_⟩
  · intro c sid hc hd
    unfold _find_state_for_message _state_keys
    rw [hc]
    simp only [List.cons_append, List.nil_append, List.findSome?_cons, hd]
  · intro b sid hcm hb hd
    unfold _find_state_for_message _state_keys
    rw [hb]
    cases hcm₂ : normKey (msgChatId m) with
    | none =>
        simp only [List.cons_append, List.nil_append, List.findSome?_cons, hd]
    | some c =>
        simp only [List.cons_append, List.nil_append, List.findSome?_cons,
          hcm c hcm₂, hd]
  · intro b o sid hcm hb ho hdu hd
    unfold _find_state_for_message _state_keys
    rw [hb, ho]
    cases hcm₂ : normKey (msgChatId m) with
    | none =>
        simp only [List.cons_append, List.nil_append, List.findSome?_cons,
          hdu, hd]
    | some c =>
        simp only [List.cons_append, List.nil_append, List.findSome?_cons,
          hcm c hcm₂, hdu, hd]
  · intro b hmiss hb hlen
    unfold _find_state_for_message
    dsimp only
    rw [List.findSome?_eq_none_iff.mpr hmiss, hb]
    dsimp only
    rw [if_pos hlen]
  · intro b hmiss hb hlen
    unfold _find_state_for_message
    dsimp only
    rw [List.findSome?_eq_none_iff.mpr hmiss, hb]
    dsimp only
    rw [if_neg hlen]
  · intro hmiss hb
    unfold _find_state_for_message
    dsimp only
    rw [List.findSome?_eq_none_iff.mpr hmiss, hb]

def c4AmbStore : List (String × Nat) :=
  [("user:2:order:7", 0), ("user:2:order:8", 1)]

def c4AmbMsg : Msg := { author_id := PyVal.vint 2 }

theorem C4_amended_witness :
    (normKey (msgChatId c4Msg) = some "1" ∧ dget c4Store "chat:1" = some 0 ∧
      _find_state_for_message c4Store c4Msg = some 0) ∧
    ((∀ k ∈ _state_keys (msgChatId c4AmbMsg) c4AmbMsg.author_id c4AmbMsg.order_id,
        dget c4AmbStore k = none) ∧
      normKey c4AmbMsg.author_id = some "2" ∧
      ((c4AmbStore.filter (fun e => pyStartsWith e.1 ("user:" ++ "2"))).map
        (fun e => e.2)).length ≠ 1 ∧
      _find_state_for_message c4AmbStore c4AmbMsg = none) := by
  obtain ⟨h1, _, _, _, h5, _⟩ := C4_amended_lookup_order c4Store c4Msg
  obtain ⟨_, _, _, _, h5b, _⟩ := C4_amended_lookup_order c4AmbStore c4AmbMsg
  exact ⟨⟨by decide, by decide, h1 "1" 0 (by decide) (by decide)⟩,
    ⟨by decide, by decide, by decide,
      h5b "2" (by decide) (by decide) (by decide)⟩⟩

end AutoSteam
